import Mathlib

/-!
Verification development for the Telegram trading bot's signal discovery and
execution pipeline.  The Python sources are shallowly embedded: Python floats
become rationals, `Optional[T]` becomes `Option T`, Python truthiness is made
explicit, network calls of the exchange adapters are modelled by oracle
functions carried in an environment, and every network interaction performed
by the pipeline is recorded in an event trace.  The SQLite tables touched by
the pipeline are modelled as lists of rows, with the `ON CONFLICT` upsert and
the `UPDATE ... WHERE` statement embedded as list transformations.
-/

/- ## Python-value helpers -/

/-- Python truthiness of an `Optional[str]`: `None` and `""` are falsy. -/
def pyTruthyS (x : Option String) : Bool :=
  match x with
  | some s => s ≠ ""
  | none => false

/-- Python truthiness of an `Optional[float]`: `None` and `0.0` are falsy.
Returns the value when truthy, `none` otherwise, so that `a or b` chains can
be written as matches on the result. -/
def pyTruthyQ (x : Option ℚ) : Option ℚ :=
  match x with
  | some v => if v = 0 then none else some v
  | none => none

/-- Python `str` truthiness as an option filter: `s or d` keeps `s` when
non-empty. -/
def pyTruthyStr (x : Option String) : Option String :=
  match x with
  | some s => if s = "" then none else some s
  | none => none

/- ## Character-list string helpers (kernel-computable replacements for the
Python string operations used by the sources) -/

/-- `str.upper()` on the underlying characters. -/
def myUpper (s : String) : String := ⟨s.data.map Char.toUpper⟩

/-- `str.lower()` on the underlying characters. -/
def myLower (s : String) : String := ⟨s.data.map Char.toLower⟩

/-- Does the second character list start with the first one? -/
def listStartsWithCh : List Char → List Char → Bool
  | [], _ => true
  | _ :: _, [] => false
  | a :: as, b :: bs => a == b && listStartsWithCh as bs

/-- Does the character list contain `needle` as a contiguous run?  Models the
Python `in` operator on strings. -/
def listHasSub (needle : List Char) : List Char → Bool
  | [] => listStartsWithCh needle []
  | c :: cs => listStartsWithCh needle (c :: cs) || listHasSub needle cs

/-- Python `needle in haystack` on strings. -/
def strContainsSub (haystack needle : String) : Bool :=
  listHasSub needle.data haystack.data

/-- Python `str.endswith(suffix)`. -/
def strEndsWith (s suffix : String) : Bool :=
  listStartsWithCh suffix.data.reverse s.data.reverse

/-- Python `str.strip()`: drop leading and trailing whitespace. -/
def strTrim (s : String) : String :=
  ⟨((s.data.dropWhile Char.isWhitespace).reverse.dropWhile Char.isWhitespace).reverse⟩

/-- Lexicographic strict order on character lists by code point, the order
SQLite uses for `TEXT` columns (binary collation) on the stored ISO-8601
timestamps. -/
def strLtL : List Char → List Char → Bool
  | [], [] => false
  | [], _ :: _ => true
  | _ :: _, [] => false
  | a :: as, b :: bs =>
    if a.val < b.val then true
    else if b.val < a.val then false
    else strLtL as bs

/-- `"\n\n".join(parts)` and friends. -/
def myIntercalate (sep : String) : List String → String
  | [] => ""
  | [x] => x
  | x :: y :: rest => x ++ sep ++ myIntercalate sep (y :: rest)

/- ## src/internal/services/exchange.py : pure helpers -/

/-- `ExecutionResult` dataclass of `exchange.py` (duplicated verbatim in
`exchange_xt.py`). -/
structure ExecutionResult where
  success : Bool
  order_id : Option String
  status : String
  error : Option String
deriving DecidableEq, Repr

/-- `SAFE_RETRY_ERRORS` tuple of `exchange.py`. -/
def SAFE_RETRY_ERRORS : List String :=
  ["NetworkError", "DDoSProtection", "RequestTimeout", "ExchangeNotAvailable",
   "RateLimitExceeded"]

/-- `is_safe_retry` of `exchange.py`: falsy message → `False`; otherwise any
transient error code occurring inside the message makes it retryable. -/
def is_safe_retry (error_msg : Option String) : Bool :=
  match error_msg with
  | none => false
  | some m =>
    if m = "" then false
    else SAFE_RETRY_ERRORS.any (fun code => strContainsSub m code)

/-- `compute_order_amount` of `exchange.py`.  The Python default
`min_amount=0.0` is passed explicitly by every caller here. -/
def compute_order_amount (notional_usdt price min_amount : ℚ) : ℚ :=
  if price ≤ 0 then 0
  else
    let amount := notional_usdt / price
    if 0 < min_amount then max amount min_amount else amount

/-- `price_deviation_too_high` of `exchange.py`.  The Python guard
`not detected_entry or not current_price or detected_entry <= 0 or
current_price <= 0` is rendered with explicit truthiness. -/
def price_deviation_too_high (detected_entry current_price : Option ℚ)
    (max_pct : ℚ) : Bool :=
  match detected_entry, current_price with
  | some e, some c =>
    if e = 0 ∨ c = 0 ∨ e ≤ 0 ∨ c ≤ 0 then false
    else decide (|c - e| / e > max_pct)
  | _, _ => false

/-- `is_anomalous_signal` of `exchange.py`. -/
def is_anomalous_signal (token position_type : Option String) : Bool :=
  if !pyTruthyS token || !pyTruthyS position_type then true
  else if myLower (position_type.getD "") ≠ "long" ∧
          myLower (position_type.getD "") ≠ "short" then true
  else if (token.getD "").length < 2 ∨ 15 < (token.getD "").length then true
  else false

/-- Params dict built by `build_futures_order_params` (`exchange.py`; the
same function exists as `_build_futures_order_params` in `exchange_xt.py`). -/
structure FuturesOrderParams where
  leverage : Option ℚ
  stopLossPrice : Option ℚ
  takeProfitPrice : Option ℚ
deriving DecidableEq, Repr

/-- `build_futures_order_params` of `exchange.py`: takes the FIRST element of
each non-empty level list (`stop_losses[0]`, `take_profits[0]`); the
`float(...)` conversions cannot fail on already-numeric levels. -/
def build_futures_order_params (leverage : Option ℚ)
    (stop_losses take_profits : Option (List ℚ)) : FuturesOrderParams :=
  { leverage := leverage
    stopLossPrice :=
      match stop_losses with
      | some (x :: _) => some x
      | _ => none
    takeProfitPrice :=
      match take_profits with
      | some (x :: _) => some x
      | _ => none }

/- smoke checks, erased semantically (anonymous examples) -/

example : is_safe_retry (some "xt NetworkError: boom") = true := by decide

example : is_safe_retry (some "InsufficientFunds") = false := by decide

example : is_anomalous_signal (some "BTC") (some "LONG") = false := by decide

example : is_anomalous_signal (some "B") (some "long") = true := by decide

/- ## Configuration and signal data model -/

/-- The fields of `configs/config.py`'s `Config` consumed by the execution
pipeline.  Credentials are `Optional[str]` (loaded as `os.getenv(...) or
None`). -/
structure Config where
  exchange : String
  enable_auto_execution : Bool
  xt_api_key : Option String
  xt_secret : Option String
  bitunix_api_key : Option String
  bitunix_secret : Option String
  order_quote : String
  order_notional : ℚ
  max_price_deviation_pct : ℚ

/-- `TradeSignal` dataclass of `internal/repositories/signals.py`. -/
structure TradeSignal where
  chat_id : Int
  message_id : Int
  token : Option String
  position_type : Option String
  entry_price : Option ℚ
  leverage : Option ℚ
  stop_losses : List ℚ
  take_profits : List ℚ
  model_name : Option String

/- ## Venue symbol construction (exchange_xt.py, exchange_bitunix.py) -/

/-- `_normalize_token_for_crypto`, defined identically in `XTClient` and
`BitunixClient`: uppercase, keep alphanumerics, map gold synonyms to PAXG. -/
def normalize_token_for_crypto (token : String) : String :=
  let base : String := ⟨(myUpper token).data.filter Char.isAlphanum⟩
  if base = "GOLD" ∨ base = "XAU" ∨ base = "XAUUSD" ∨ base = "XAUUSDT" then
    "PAXG"
  else base

/-- `XTClient.swap_symbol`. -/
def xt_swap_symbol (token quote : String) : String :=
  let base := normalize_token_for_crypto token
  let q := myUpper quote
  base ++ "/" ++ q ++ ":" ++ q

/-- `BitunixClient.swap_symbol`: avoids appending the quote if the base
already ends with it. -/
def bitunix_swap_symbol (token quote : String) : String :=
  let base := normalize_token_for_crypto token
  let q := myUpper quote
  if strEndsWith base q then base else base ++ q

/-- `_symbol_pair_bitunix` of `order_sizing.py`: normalizes, filters
alphanumerics again (a no-op after normalization) and applies the same
suffix rule. -/
def symbol_pair_bitunix (token quote : String) : String :=
  let norm := normalize_token_for_crypto token
  let base : String := ⟨(myUpper norm).data.filter Char.isAlphanum⟩
  let q := myUpper quote
  if strEndsWith base q then base else base ++ q

/- ## Exchange environment: oracles for the adapter's network calls -/

/-- Network interactions performed by the pipeline, in order.  `orderCall`
records one attempt of the XT retry loop together with the submitted
parameters; `bitunixOrder` records the single Bitunix order call with its
bracket levels; `sleepSecs` records the retry back-off sleeps. -/
inductive NetEvent where
  | fetchPrice (symbol : String)
  | fetchBalance (quote : String)
  | orderCall (attempt : ℕ) (symbol side : String) (quantity : ℚ)
      (params : FuturesOrderParams)
  | bitunixOrder (symbol side : String) (quantity : ℚ)
      (tpPrice slPrice : Option ℚ)
  | sleepSecs (secs : ℚ)
deriving DecidableEq, Repr

/-- Is the event an order placement (as opposed to a read or a sleep)? -/
def NetEvent.isOrderPlacement : NetEvent → Bool
  | NetEvent.orderCall _ _ _ _ _ => true
  | NetEvent.bitunixOrder _ _ _ _ _ => true
  | _ => false

/-- Is the event a price or balance read? -/
def NetEvent.isFetch : NetEvent → Bool
  | NetEvent.fetchPrice _ => true
  | NetEvent.fetchBalance _ => true
  | _ => false

/-- Oracle model of the active adapter: responses of `fetch_price`,
`get_available_balance` and of the n-th `market_order`/`limit_order` call of
a pipeline run.  The adapters catch internally and always return an
`ExecutionResult` (see the C10 theorems), so the oracles are total. -/
structure ExchangeEnv where
  price : String → Option ℚ
  balance : String → Option ℚ
  market_order : ℕ → ExecutionResult
  limit_order : ℕ → ExecutionResult

/- ## src/internal/services/order_sizing.py -/

/-- The trading symbol the sizing routine resolves: `_symbol_pair_bitunix`
for Bitunix, `XTClient.swap_symbol` otherwise (the two branches of
`determine_order_quantity`). -/
def sizing_symbol (cfg : Config) (token : String) : String :=
  if cfg.exchange = "bitunix" then symbol_pair_bitunix token cfg.order_quote
  else xt_swap_symbol token cfg.order_quote

/-- The price the sizing routine works with:
`client.fetch_price(symbol) or entry_price` (Python `or`, so a `0.0` live
price also falls back to the extracted entry price). -/
def sizing_current_price (cfg : Config) (env : ExchangeEnv)
    (token : String) (entry_price : Option ℚ) : Option ℚ :=
  match pyTruthyQ (env.price (sizing_symbol cfg token)) with
  | some v => some v
  | none => entry_price

/-- `determine_order_quantity` of `order_sizing.py`, returning the quantity
together with the trace of network reads it performed.  The Bitunix and XT
branches of the source differ only in symbol construction (captured by
`sizing_symbol`); the price/balance/budget logic is identical, with
`MIN_BUDGET_USD = 10.0` and budget `0.9 ×` free balance. -/
def determine_order_quantity (cfg : Config) (env : ExchangeEnv)
    (token : Option String) (entry_price : Option ℚ) : ℚ × List NetEvent :=
  if !pyTruthyS token then (0, [])
  else
    let sym := sizing_symbol cfg (token.getD "")
    match sizing_current_price cfg env (token.getD "") entry_price with
    | none => (0, [NetEvent.fetchPrice sym])
    | some c =>
      if c ≤ 0 then (0, [NetEvent.fetchPrice sym])
      else
        match env.balance cfg.order_quote with
        | none => (0, [NetEvent.fetchPrice sym,
                       NetEvent.fetchBalance cfg.order_quote])
        | some free =>
          if free ≤ 0 then
            (0, [NetEvent.fetchPrice sym,
                 NetEvent.fetchBalance cfg.order_quote])
          else
            let budget := free * (9 / 10)
            if budget < 10 then
              (0, [NetEvent.fetchPrice sym,
                   NetEvent.fetchBalance cfg.order_quote])
            else
              (compute_order_amount budget c 0,
               [NetEvent.fetchPrice sym,
                NetEvent.fetchBalance cfg.order_quote])

/- ## exchange.py : execute_signal with its retry loop -/

/-- One adapter call of the retry loop body: `client.limit_order(...)` when
the limit branch is taken (order type "limit" with a positive truthy entry
price), else `client.market_order(...)`. -/
def adapter_call (env : ExchangeEnv) (useLimit : Bool) (a : ℕ) :
    ExecutionResult :=
  if useLimit then env.limit_order a else env.market_order a

/-- The `while True` retry loop of `execute_signal`: `attempts` is the count
of attempts already made (0 on entry).  Each iteration makes one adapter
call; a success returns immediately; a transient failure sleeps
`1.0 * attempts` seconds and retries while fewer than 3 attempts were made;
anything else is returned as-is. -/
def retry_loop (env : ExchangeEnv) (useLimit : Bool) (symbol side : String)
    (quantity : ℚ) (params : FuturesOrderParams) (attempts : ℕ) :
    ExecutionResult × List NetEvent :=
  let a := attempts + 1
  let result := adapter_call env useLimit a
  if result.success then
    (result, [NetEvent.orderCall a symbol side quantity params])
  else if h : is_safe_retry result.error = true ∧ a < 3 then
    let rest := retry_loop env useLimit symbol side quantity params a
    (rest.1, NetEvent.orderCall a symbol side quantity params ::
             NetEvent.sleepSecs (1 * (a : ℚ)) :: rest.2)
  else
    (result, [NetEvent.orderCall a symbol side quantity params])
termination_by 3 - attempts
decreasing_by omega

/-- `execute_signal` of `exchange.py` (the client being the XT adapter as
wired by the executor), returning the result and the network trace. -/
def execute_signal (cfg : Config) (env : ExchangeEnv)
    (token position_type : Option String) (entry_price leverage : Option ℚ)
    (precomputed_quantity : Option ℚ)
    (stop_losses take_profits : Option (List ℚ)) (order_type : String) :
    ExecutionResult × List NetEvent :=
  if is_anomalous_signal token position_type then
    ({ success := false, order_id := none, status := "rejected_anomaly",
       error := some "Signal fields invalid or missing" }, [])
  else
    let symbol := xt_swap_symbol (token.getD "") cfg.order_quote
    let side := if myLower (position_type.getD "") = "long" then "buy"
                else "sell"
    let current_price := env.price symbol
    let ev := [NetEvent.fetchPrice symbol]
    if price_deviation_too_high entry_price current_price
        cfg.max_price_deviation_pct then
      ({ success := false, order_id := none, status := "rejected_deviation",
         error := some "Price deviation too high" }, ev)
    else
      let ref_price : ℚ :=
        match pyTruthyQ current_price with
        | some v => v
        | none =>
          match pyTruthyQ entry_price with
          | some v => v
          | none => 0
      if ref_price ≤ 0 then
        ({ success := false, order_id := none, status := "rejected_no_price",
           error := some "No valid price available" }, ev)
      else
        let quantity :=
          match precomputed_quantity with
          | some q =>
            if 0 < q then q else compute_order_amount cfg.order_notional ref_price 0
          | none => compute_order_amount cfg.order_notional ref_price 0
        let params := build_futures_order_params leverage stop_losses take_profits
        let useLimit : Bool :=
          (order_type == "limit") &&
          (match pyTruthyQ entry_price with
           | some e => decide (0 < e)
           | none => false)
        let rl := retry_loop env useLimit symbol side quantity params 0
        (rl.1, ev ++ rl.2)

/- ## src/internal/repositories/positions.py -/

/-- `SubmittedPosition` dataclass of `positions.py`. -/
structure SubmittedPosition where
  chat_id : Int
  message_id : Int
  symbol : String
  side : String
  quantity : ℚ
  price : Option ℚ
  leverage : Option ℚ
  order_id : Option String
  status : String
  error : Option String
deriving DecidableEq, Repr

/-- Row of the `positions_submitted` table: a `SubmittedPosition` plus the
timestamp columns; the table carries `UNIQUE(chat_id, message_id)`. -/
structure PositionRow extends SubmittedPosition where
  created_at_utc : String
  updated_at_utc : String
deriving DecidableEq, Repr

/-- Does a row belong to the given `(chat_id, message_id)` key? -/
def rowKeyEq (chat_id message_id : Int) (r : PositionRow) : Bool :=
  r.chat_id == chat_id && r.message_id == message_id

/-- `upsert_submitted_position`: `INSERT ... ON CONFLICT(chat_id, message_id)
DO UPDATE SET` over the unique key — a fresh row (with both timestamps set to
`now`) when no row with the key exists, otherwise every data field and
`updated_at_utc` are overwritten while `created_at_utc` is kept. -/
def upsert_submitted_position (db : List PositionRow) (sp : SubmittedPosition)
    (now : String) : List PositionRow :=
  if db.any (rowKeyEq sp.chat_id sp.message_id) then
    db.map (fun r =>
      if rowKeyEq sp.chat_id sp.message_id r then
        { toSubmittedPosition := sp, created_at_utc := r.created_at_utc,
          updated_at_utc := now }
      else r)
  else
    db ++ [{ toSubmittedPosition := sp, created_at_utc := now,
             updated_at_utc := now }]

/-- `update_position_status`: `UPDATE positions_submitted SET status, error,
updated_at_utc WHERE chat_id = ? AND message_id = ?` — a no-op on rows whose
key does not match (and on an empty table). -/
def update_position_status (db : List PositionRow) (chat_id message_id : Int)
    (status : String) (error : Option String) (now : String) :
    List PositionRow :=
  db.map (fun r =>
    if rowKeyEq chat_id message_id r then
      { r with status := status, error := error, updated_at_utc := now }
    else r)

/- ## src/internal/services/executor.py -/

/-- The Bitunix bracket levels computed inline in
`submit_position_if_enabled` (lines 150–167): for a long, take-profit =
`min(take_profits)` and stop-loss = `max(stop_losses)`; mirrored for any
other side; empty lists yield `None`. -/
def bitunix_bracket_levels (position_type : Option String)
    (stop_losses take_profits : List ℚ) : Option ℚ × Option ℚ :=
  let isLong := myLower (position_type.getD "") == "long"
  let tp_price : Option ℚ :=
    match take_profits with
    | [] => none
    | _ :: _ => if isLong then take_profits.min? else take_profits.max?
  let sl_price : Option ℚ :=
    match stop_losses with
    | [] => none
    | _ :: _ => if isLong then stop_losses.max? else stop_losses.min?
  (tp_price, sl_price)

/-- `submit_position_if_enabled` of `executor.py`:
returns the Python return value (`None` or the `ExecutionResult`), the
`positions_submitted` table after the run, and the network trace.  The
`now` argument stands for the wall-clock timestamps the repository writes.
Control flow follows the source: dry-run short-circuit, credential /
known-venue validation (which only issues an `UPDATE`, before any row was
inserted), the `pending` upsert, sizing, then the XT `execute_signal` path
or the direct Bitunix order call, and the final terminal status update. -/
def submit_position_if_enabled (cfg : Config) (env : ExchangeEnv)
    (db : List PositionRow) (sig : TradeSignal) (now : String) :
    Option ExecutionResult × List PositionRow × List NetEvent :=
  if !cfg.enable_auto_execution then
    -- dry-run: logs the would-be order; `determine_order_quantity` still
    -- performs its price/balance reads
    let dq := determine_order_quantity cfg env sig.token sig.entry_price
    (none, db, dq.2)
  else if cfg.exchange == "xt" &&
          !(pyTruthyS cfg.xt_api_key && pyTruthyS cfg.xt_secret) then
    (none,
     update_position_status db sig.chat_id sig.message_id "rejected_config"
       (some "XT credentials not configured") now,
     [])
  else if cfg.exchange == "bitunix" &&
          !(pyTruthyS cfg.bitunix_api_key && pyTruthyS cfg.bitunix_secret) then
    (none,
     update_position_status db sig.chat_id sig.message_id "rejected_config"
       (some "Bitunix credentials not configured") now,
     [])
  else if cfg.exchange != "xt" && cfg.exchange != "bitunix" then
    (none,
     update_position_status db sig.chat_id sig.message_id "rejected_config"
       (some ("Unknown exchange: " ++ cfg.exchange)) now,
     [])
  else
    let symbol_for_record :=
      if cfg.exchange == "xt" then
        myUpper (sig.token.getD "") ++ "/" ++ cfg.order_quote
      else
        myUpper (sig.token.getD "") ++ cfg.order_quote
    let db1 := upsert_submitted_position db
      { chat_id := sig.chat_id, message_id := sig.message_id,
        symbol := symbol_for_record,
        side := if myLower (sig.position_type.getD "") = "long" then "buy"
                else "sell",
        quantity := 0, price := sig.entry_price, leverage := sig.leverage,
        order_id := none, status := "pending", error := none } now
    let dq := determine_order_quantity cfg env sig.token sig.entry_price
    if dq.1 ≤ 0 then
      (none,
       update_position_status db1 sig.chat_id sig.message_id
         "rejected_no_quantity" (some "Unable to compute order quantity") now,
       dq.2)
    else
      let result :=
        if cfg.exchange == "xt" then
          execute_signal cfg env sig.token sig.position_type sig.entry_price
            sig.leverage (some dq.1) (some sig.stop_losses)
            (some sig.take_profits) "market"
        else
          -- Bitunix path: one direct market order with bracket levels
          let side := if myLower (sig.position_type.getD "") = "long" then
              "BUY" else "SELL"
          let symbol_pair :=
            bitunix_swap_symbol (sig.token.getD "") cfg.order_quote
          let lv := bitunix_bracket_levels sig.position_type sig.stop_losses
            sig.take_profits
          (env.market_order 1,
           [NetEvent.bitunixOrder symbol_pair side dq.1 lv.1 lv.2])
      let db2 :=
        if result.1.success then
          update_position_status db1 sig.chat_id sig.message_id "submitted"
            none now
        else
          update_position_status db1 sig.chat_id sig.message_id
            result.1.status result.1.error now
      (some result.1, db2, dq.2 ++ result.2)

/- ## Adapter order placement (exchange_xt.py, exchange_bitunix.py) -/

/-- A Python exception as seen by an `except Exception as e` handler:
`excName` is `e.__class__.__name__`, `msg` is `str(e)`. -/
structure PyException where
  excName : String
  msg : String
deriving DecidableEq, Repr

/-- The dict ccxt's `create_order` returns, restricted to the keys
`XTClient` reads. -/
structure CcxtOrder where
  orderId : Option String
  orderStatus : Option String
deriving DecidableEq, Repr

/-- `XTClient.market_order`: the entire body sits inside `try/except
Exception`; the ccxt call either yields an order dict or raises. -/
def xt_market_order (attempt : Except PyException CcxtOrder) :
    ExecutionResult :=
  match attempt with
  | Except.ok o =>
    { success := true,
      order_id := some ((pyTruthyStr o.orderId).getD ""),
      status := (pyTruthyStr o.orderStatus).getD "filled",
      error := none }
  | Except.error e =>
    { success := false, order_id := none, status := "error",
      error := some (e.excName ++ ": " ++ e.msg) }

/-- `XTClient.limit_order`: same shape with default status `"open"`. -/
def xt_limit_order (attempt : Except PyException CcxtOrder) :
    ExecutionResult :=
  match attempt with
  | Except.ok o =>
    { success := true,
      order_id := some ((pyTruthyStr o.orderId).getD ""),
      status := (pyTruthyStr o.orderStatus).getD "open",
      error := none }
  | Except.error e =>
    { success := false, order_id := none, status := "error",
      error := some (e.excName ++ ": " ++ e.msg) }

/-- `BitunixClient.market_order`: the body (leverage change, param mapping,
`place_order`) sits inside `try/except Exception`; `place_order` itself
already returns an `ExecutionResult`, and any exception escaping the body is
converted into `ExecutionResult(False, None, "error", str(e))`. -/
def bitunix_market_order (attempt : Except PyException ExecutionResult) :
    ExecutionResult :=
  match attempt with
  | Except.ok r => r
  | Except.error e =>
    { success := false, order_id := none, status := "error",
      error := some e.msg }

/-- `BitunixClient.limit_order`: identical exception conversion. -/
def bitunix_limit_order (attempt : Except PyException ExecutionResult) :
    ExecutionResult :=
  match attempt with
  | Except.ok r => r
  | Except.error e =>
    { success := false, order_id := none, status := "error",
      error := some e.msg }

/- ## src/internal/services/signal_extraction.py : window aggregation -/

/-- Row of the `messages` table, restricted to the columns
`_get_recent_messages` selects; `text` is nullable in the schema. -/
structure MsgRow where
  chat_id : Int
  message_id : Int
  date_utc : String
  text : Option String
  raw_json : String
deriving DecidableEq, Repr

/-- The dict `_get_recent_messages` builds per row, with
`"text": row[3] or ""`. -/
structure MsgRec where
  chat_id : Int
  message_id : Int
  date_utc : String
  text : String
  raw_json : String
deriving DecidableEq, Repr

/-- Conversion of a row into the message dict. -/
def msgRowToRec (r : MsgRow) : MsgRec :=
  { chat_id := r.chat_id, message_id := r.message_id, date_utc := r.date_utc,
    text := (pyTruthyStr r.text).getD "", raw_json := r.raw_json }

/-- Does `a` sort no later than `b` under `ORDER BY date_utc DESC,
message_id DESC`?  I.e. `(a.date_utc, a.message_id)` is lexicographically
at least `(b.date_utc, b.message_id)`. -/
def msgDescGe (a b : MsgRow) : Bool :=
  strLtL b.date_utc.data a.date_utc.data ||
  (a.date_utc.data == b.date_utc.data && b.message_id ≤ a.message_id)

/-- Insert a row into a descending-sorted list (insertion-sort step modelling
the SQL ordering). -/
def insertDescRow (r : MsgRow) : List MsgRow → List MsgRow
  | [] => [r]
  | x :: xs => if msgDescGe r x then r :: x :: xs else x :: insertDescRow r xs

/-- Sort rows by `(date_utc, message_id)` descending, the `ORDER BY` of
`_get_recent_messages`. -/
def sortRowsDesc : List MsgRow → List MsgRow
  | [] => []
  | x :: xs => insertDescRow x (sortRowsDesc xs)

/-- `_get_recent_messages`: `SELECT ... WHERE chat_id = ? ORDER BY date_utc
DESC, message_id DESC LIMIT ?`, converted to dicts, then
`list(reversed(messages))` to chronological order. -/
def get_recent_messages (db : List MsgRow) (chat_id : Int)
    (window_size : ℕ) : List MsgRec :=
  ((((sortRowsDesc (db.filter (fun r => r.chat_id == chat_id))).take
      window_size).map msgRowToRec).reverse)

/-- The tagged line `_combine_messages_for_analysis` emits for one message
with non-empty stripped text. -/
def combined_part (m : MsgRec) : String :=
  "[Message " ++ toString m.message_id ++ " at " ++ m.date_utc ++ "]: " ++
    strTrim m.text

/-- `_combine_messages_for_analysis`: keep messages whose stripped text is
non-empty, tag each with its id and timestamp, join with blank lines. -/
def combine_messages_for_analysis (messages : List MsgRec) : String :=
  match messages with
  | [] => ""
  | _ :: _ =>
    myIntercalate "\n\n"
      (messages.filterMap (fun m =>
        if strTrim m.text = "" then none else some (combined_part m)))

/-- The aggregation part of `process_windowed_signal_extraction`: the text
block handed to the inference call, or `none` when no recent messages were
found and the pipeline returns before calling inference. -/
def process_windowed_combined (db : List MsgRow) (chat_id : Int)
    (window_size : ℕ) : Option String :=
  match get_recent_messages db chat_id window_size with
  | [] => none
  | msgs => some (combine_messages_for_analysis msgs)

/- ## Theorems -/

/-- C7: `is_anomalous_signal` is true for every token of length < 2 or > 15
(with position "long"); false for every token of length in [2,15] paired with
a position whose lowercase form is "long" or "short"; and true whenever the
token is missing/empty or the position type is missing, empty, or anything
else. -/
theorem C7_is_anomalous_signal_spec :
    (∀ t : String, t.length < 2 ∨ 15 < t.length →
      is_anomalous_signal (some t) (some "long") = true) ∧
    (∀ t p : String, 2 ≤ t.length → t.length ≤ 15 →
      (myLower p = "long" ∨ myLower p = "short") →
      is_anomalous_signal (some t) (some p) = false) ∧
    (∀ p, is_anomalous_signal none p = true) ∧
    (∀ p, is_anomalous_signal (some "") p = true) ∧
    (∀ t, is_anomalous_signal (some t) none = true) ∧
    (∀ t, is_anomalous_signal (some t) (some "") = true) ∧
    (∀ t p : String, myLower p ≠ "long" → myLower p ≠ "short" →
      is_anomalous_signal (some t) (some p) = true) := by
  refine ⟨?_, ?_, ?_, ?_, ?_, ?_, ?_⟩
  · intro t ht
    by_cases h : t = ""
    · subst h; decide
    · have h1 : pyTruthyS (some t) = true := by simp [pyTruthyS, h]
      have h3 : ¬(myLower ("long") ≠ "long" ∧ myLower ("long") ≠ "short") := by
        decide
      simp only [is_anomalous_signal, Option.getD_some, h1]
      norm_num
      exact Or.inr (Or.inr ht)
  · intro t p hl hu hp
    have ht' : t ≠ "" := by
      intro h; subst h; exact absurd hl (by decide)
    have hp' : p ≠ "" := by
      intro h; subst h
      rcases hp with h | h <;> exact absurd h (by decide)
    have h1 : pyTruthyS (some t) = true := by simp [pyTruthyS, ht']
    have h2 : pyTruthyS (some p) = true := by simp [pyTruthyS, hp']
    have h3 : ¬(myLower p ≠ "long" ∧ myLower p ≠ "short") := by
      rcases hp with h | h <;> simp [h]
    have h4 : ¬(t.length < 2 ∨ 15 < t.length) := by omega
    simp only [is_anomalous_signal, Option.getD_some, h1, h2]
    norm_num
    exact ⟨fun hh => hp.resolve_left hh, hl, hu⟩
  · intro p; simp [is_anomalous_signal, pyTruthyS]
  · intro p; simp [is_anomalous_signal, pyTruthyS]
  · intro t; simp [is_anomalous_signal, pyTruthyS]
  · intro t; simp [is_anomalous_signal, pyTruthyS]
  · intro t p h1 h2
    by_cases h : p = ""
    · subst h; simp [is_anomalous_signal, pyTruthyS]
    · by_cases ht : t = ""
      · subst ht; simp [is_anomalous_signal, pyTruthyS]
      · have hp1 : pyTruthyS (some t) = true := by simp [pyTruthyS, ht]
        have hp2 : pyTruthyS (some p) = true := by simp [pyTruthyS, h]
        simp only [is_anomalous_signal, Option.getD_some, hp1, hp2]
        norm_num
        exact Or.inl ⟨h1, h2⟩

/-- C7 witness: the token "A" (length 1) with position "long" is anomalous. -/
theorem C7_witness : is_anomalous_signal (some "A") (some "long") = true :=
  C7_is_anomalous_signal_spec.1 "A" (Or.inl (by decide))

/-- C8: `price_deviation_too_high` is false whenever entry or current price is
missing or non-positive, and for positive entry and current price it is true
exactly when `|current - entry| / entry` exceeds the maximum fraction. -/
theorem C8_price_deviation_spec :
    (∀ (c : Option ℚ) (m : ℚ), price_deviation_too_high none c m = false) ∧
    (∀ (e : Option ℚ) (m : ℚ), price_deviation_too_high e none m = false) ∧
    (∀ e c m : ℚ, e ≤ 0 →
      price_deviation_too_high (some e) (some c) m = false) ∧
    (∀ e c m : ℚ, c ≤ 0 →
      price_deviation_too_high (some e) (some c) m = false) ∧
    (∀ e c m : ℚ, 0 < e → 0 < c →
      (price_deviation_too_high (some e) (some c) m = true ↔
        |c - e| / e > m)) := by
  refine ⟨?_, ?_, ?_, ?_, ?_⟩
  · intro c m; cases c <;> simp [price_deviation_too_high]
  · intro e m; cases e <;> simp [price_deviation_too_high]
  · intro e c m he
    simp only [price_deviation_too_high]
    rw [if_pos (Or.inr (Or.inr (Or.inl he)))]
  · intro e c m hc
    simp only [price_deviation_too_high]
    rw [if_pos (Or.inr (Or.inr (Or.inr hc)))]
  · intro e c m he hc
    have hcond : ¬(e = 0 ∨ c = 0 ∨ e ≤ 0 ∨ c ≤ 0) := by
      push_neg
      refine ⟨ne_of_gt he, ne_of_gt hc, he, hc⟩
    simp only [price_deviation_too_high]
    rw [if_neg hcond]
    exact decide_eq_true_iff
  
/-- C8 witness: entry 100, current 105, max 2% — a 5% deviation is flagged. -/
theorem C8_witness :
    price_deviation_too_high (some 100) (some 105) (1 / 50) = true :=
  (C8_price_deviation_spec.2.2.2.2 100 105 (1 / 50) (by norm_num)
    (by norm_num)).mpr (by norm_num)

/-- C3: the sizing routine fails closed (quantity 0) when no positive price
is available (live price with entry-price fallback), when the quote balance
is unavailable or non-positive, or when `0.9 ×` balance is below the 10-unit
floor, and otherwise returns `(0.9 × balance) / price`; and
`compute_order_amount` is `notional / price` for positive price and `0`
otherwise. -/
theorem C3_order_sizing_spec :
    (∀ (cfg : Config) (env : ExchangeEnv) (token : Option String)
        (entry : Option ℚ),
      (pyTruthyS token = false →
        (determine_order_quantity cfg env token entry).1 = 0) ∧
      (sizing_current_price cfg env (token.getD "") entry = none →
        (determine_order_quantity cfg env token entry).1 = 0) ∧
      (∀ c, sizing_current_price cfg env (token.getD "") entry = some c →
        c ≤ 0 → (determine_order_quantity cfg env token entry).1 = 0) ∧
      (env.balance cfg.order_quote = none →
        (determine_order_quantity cfg env token entry).1 = 0) ∧
      (∀ b, env.balance cfg.order_quote = some b → b ≤ 0 →
        (determine_order_quantity cfg env token entry).1 = 0) ∧
      (∀ c b, sizing_current_price cfg env (token.getD "") entry = some c →
        0 < c → env.balance cfg.order_quote = some b → 0 < b →
        b * (9 / 10) < 10 →
        (determine_order_quantity cfg env token entry).1 = 0) ∧
      (∀ c b, pyTruthyS token = true →
        sizing_current_price cfg env (token.getD "") entry = some c →
        0 < c → env.balance cfg.order_quote = some b → 0 < b →
        10 ≤ b * (9 / 10) →
        (determine_order_quantity cfg env token entry).1 =
          b * (9 / 10) / c)) ∧
    (∀ n p : ℚ, 0 < p → compute_order_amount n p 0 = n / p) ∧
    (∀ n p : ℚ, p ≤ 0 → compute_order_amount n p 0 = 0) := by
  refine ⟨?_, ?_, ?_⟩
  · intro cfg env token entry
    refine ⟨?_, ?_, ?_, ?_, ?_, ?_, ?_⟩
    · intro h
      simp [determine_order_quantity, h]
    · intro h
      by_cases ht : pyTruthyS token
      · simp [determine_order_quantity, ht, h]
      · simp [determine_order_quantity, ht]
    · intro c hc hle
      by_cases ht : pyTruthyS token
      · simp [determine_order_quantity, ht, hc, if_pos hle]
      · simp [determine_order_quantity, ht]
    · intro h
      by_cases ht : pyTruthyS token
      · rcases hc : sizing_current_price cfg env (token.getD "") entry with
          _ | c
        · simp [determine_order_quantity, ht, hc]
        · by_cases hcle : c ≤ 0
          · simp [determine_order_quantity, ht, hc, hcle]
          · simp [determine_order_quantity, ht, hc, hcle, h]
      · simp [determine_order_quantity, ht]
    · intro b hb hble
      by_cases ht : pyTruthyS token
      · rcases hc : sizing_current_price cfg env (token.getD "") entry with
          _ | c
        · simp [determine_order_quantity, ht, hc]
        · by_cases hcle : c ≤ 0
          · simp [determine_order_quantity, ht, hc, hcle]
          · simp [determine_order_quantity, ht, hc, hcle, hb, hble]
      · simp [determine_order_quantity, ht]
    · intro c b hc hcpos hb hbpos hfloor
      by_cases ht : pyTruthyS token
      · simp [determine_order_quantity, ht, hc, not_le.mpr hcpos, hb,
          not_le.mpr hbpos, hfloor]
      · simp [determine_order_quantity, ht]
    · intro c b ht hc hcpos hb hbpos hfloor
      have hnf : ¬(b * (9 / 10) < 10) := not_lt.mpr hfloor
      simp only [determine_order_quantity, ht, Bool.not_true,
        Bool.false_eq_true, if_false, hc, hb]
      rw [if_neg (not_le.mpr hcpos), if_neg (not_le.mpr hbpos), if_neg hnf]
      simp [compute_order_amount, not_le.mpr hcpos]
  · intro n p hp
    simp [compute_order_amount, not_le.mpr hp]
  · intro n p hp
    simp [compute_order_amount, hp]

/-- Environment for the C3 witness: live price 100, free balance 1000. -/
def envC3 : ExchangeEnv :=
  { price := fun _ => some 100
    balance := fun _ => some 1000
    market_order := fun _ =>
      { success := true, order_id := some "1", status := "submitted",
        error := none }
    limit_order := fun _ =>
      { success := true, order_id := some "1", status := "open",
        error := none } }

/-- Configuration shared by several concrete runs: XT venue with credentials,
auto-execution on, USDT quote. -/
def cfgXT : Config :=
  { exchange := "xt", enable_auto_execution := true,
    xt_api_key := some "k", xt_secret := some "s",
    bitunix_api_key := none, bitunix_secret := none,
    order_quote := "USDT", order_notional := 10,
    max_price_deviation_pct := 1 / 50 }

/-- C3 witness: with price 100 and balance 1000, the quantity is
`0.9 × 1000 / 100 = 9`. -/
theorem C3_witness :
    (determine_order_quantity cfgXT envC3 (some "BTC") none).1 = 9 := by
  have h := (C3_order_sizing_spec.1 cfgXT envC3 (some "BTC") none).2.2.2.2.2.2
    100 1000 (by simp [pyTruthyS])
    (by simp [sizing_current_price, pyTruthyQ, envC3])
    (by norm_num) (by simp [envC3]) (by norm_num) (by norm_num)
  rw [h]; norm_num

/-- C2: the retry loop retries only transient failures, up to 3 attempts
total, sleeping `attempt × 1` second between attempts; a success returns
immediately; a non-transient failure, or the result of the 3rd attempt, is
returned as-is.  In particular two transient errors followed by a success
yield the success after exactly 3 adapter calls with increasing delays. -/
theorem C2_retry_policy_spec :
    ∀ (env : ExchangeEnv) (useLimit : Bool) (sym side : String) (qty : ℚ)
      (params : FuturesOrderParams),
    ((adapter_call env useLimit 1).success = true →
      retry_loop env useLimit sym side qty params 0 =
        (adapter_call env useLimit 1,
         [NetEvent.orderCall 1 sym side qty params])) ∧
    ((adapter_call env useLimit 1).success = false →
      is_safe_retry (adapter_call env useLimit 1).error = false →
      retry_loop env useLimit sym side qty params 0 =
        (adapter_call env useLimit 1,
         [NetEvent.orderCall 1 sym side qty params])) ∧
    ((adapter_call env useLimit 1).success = false →
      is_safe_retry (adapter_call env useLimit 1).error = true →
      (adapter_call env useLimit 2).success = false →
      is_safe_retry (adapter_call env useLimit 2).error = true →
      (adapter_call env useLimit 3).success = true →
      retry_loop env useLimit sym side qty params 0 =
        (adapter_call env useLimit 3,
         [NetEvent.orderCall 1 sym side qty params, NetEvent.sleepSecs 1,
          NetEvent.orderCall 2 sym side qty params, NetEvent.sleepSecs 2,
          NetEvent.orderCall 3 sym side qty params])) ∧
    ((adapter_call env useLimit 1).success = false →
      is_safe_retry (adapter_call env useLimit 1).error = true →
      (adapter_call env useLimit 2).success = false →
      is_safe_retry (adapter_call env useLimit 2).error = true →
      (adapter_call env useLimit 3).success = false →
      retry_loop env useLimit sym side qty params 0 =
        (adapter_call env useLimit 3,
         [NetEvent.orderCall 1 sym side qty params, NetEvent.sleepSecs 1,
          NetEvent.orderCall 2 sym side qty params, NetEvent.sleepSecs 2,
          NetEvent.orderCall 3 sym side qty params])) := by
  intro env useLimit sym side qty params
  refine ⟨?_, ?_, ?_, ?_⟩
  · intro h1
    rw [retry_loop]
    simp [h1]
  · intro h1 hs1
    rw [retry_loop]
    simp [h1, hs1]
  · intro h1 hs1 h2 hs2 h3
    rw [retry_loop]
    simp only [Nat.zero_add, h1, Bool.false_eq_true, if_false]
    rw [dif_pos ⟨hs1, by omega⟩, retry_loop]
    simp only [Nat.reduceAdd, h2, Bool.false_eq_true, if_false]
    rw [dif_pos ⟨hs2, by omega⟩, retry_loop]
    simp only [Nat.reduceAdd, h3, if_true]
    norm_num
  · intro h1 hs1 h2 hs2 h3
    rw [retry_loop]
    simp only [Nat.zero_add, h1, Bool.false_eq_true, if_false]
    rw [dif_pos ⟨hs1, by omega⟩, retry_loop]
    simp only [Nat.reduceAdd, h2, Bool.false_eq_true, if_false]
    rw [dif_pos ⟨hs2, by omega⟩, retry_loop]
    simp only [Nat.reduceAdd, h3, Bool.false_eq_true, if_false]
    rw [dif_neg (by omega)]
    norm_num

/-- A transient adapter failure (ccxt network error). -/
def errTransient : ExecutionResult :=
  { success := false, order_id := none, status := "error",
    error := some "NetworkError: connection reset" }

/-- A successful submission result. -/
def okSubmitted : ExecutionResult :=
  { success := true, order_id := some "42", status := "submitted",
    error := none }

/-- Environment for the C2 witness: the first two market-order calls fail
transiently, the third succeeds. -/
def envC2 : ExchangeEnv :=
  { price := fun _ => none
    balance := fun _ => none
    market_order := fun a => if a < 3 then errTransient else okSubmitted
    limit_order := fun _ => okSubmitted }

/-- C2 witness: two transient network errors then a success yield the success
after exactly three calls with sleeps of 1 s and 2 s. -/
theorem C2_witness :
    retry_loop envC2 false "BTC/USDT:USDT" "buy" 1
      { leverage := none, stopLossPrice := none, takeProfitPrice := none } 0 =
    (okSubmitted,
     [NetEvent.orderCall 1 "BTC/USDT:USDT" "buy" 1
        { leverage := none, stopLossPrice := none, takeProfitPrice := none },
      NetEvent.sleepSecs 1,
      NetEvent.orderCall 2 "BTC/USDT:USDT" "buy" 1
        { leverage := none, stopLossPrice := none, takeProfitPrice := none },
      NetEvent.sleepSecs 2,
      NetEvent.orderCall 3 "BTC/USDT:USDT" "buy" 1
        { leverage := none, stopLossPrice := none, takeProfitPrice := none }]) := by
  have h := (C2_retry_policy_spec envC2 false "BTC/USDT:USDT" "buy" 1
      { leverage := none, stopLossPrice := none, takeProfitPrice := none }).2.2.1
    (by decide) (by decide) (by decide) (by decide) (by decide)
  simpa [adapter_call, envC2] using h

/-- A character list starts with itself, whatever follows it. -/
theorem listStartsWithCh_self_append (n rest : List Char) :
    listStartsWithCh n (n ++ rest) = true := by
  induction n with
  | nil => simp [listStartsWithCh]
  | cons c cs ih => simp [listStartsWithCh, ih]

/-- Substring containment survives prepending. -/
theorem listHasSub_append_left (n l1 l2 : List Char)
    (h : listHasSub n l2 = true) : listHasSub n (l1 ++ l2) = true := by
  induction l1 with
  | nil => simpa using h
  | cons c cs ih =>
    simp only [List.cons_append, listHasSub, Bool.or_eq_true]
    exact Or.inr ih

/-- Every list contains itself followed by anything as a substring. -/
theorem listHasSub_self_append (n rest : List Char) :
    listHasSub n (n ++ rest) = true := by
  cases n with
  | nil =>
    cases h : ([] ++ rest : List Char) with
    | nil => simp [listHasSub, listStartsWithCh]
    | cons c cs => simp [h, listHasSub, listStartsWithCh]
  | cons c cs =>
    simp only [List.cons_append, listHasSub, Bool.or_eq_true]
    exact Or.inl (listStartsWithCh_self_append (c :: cs) rest)

/-- C10: the adapter order-placement methods convert every exception raised
inside their bodies into a failed `ExecutionResult` carrying the exception
text, and pass successful inner results through; they never propagate an
exception. -/
theorem C10_adapter_exception_conversion :
    (∀ e : PyException, xt_market_order (Except.error e) =
      { success := false, order_id := none, status := "error",
        error := some (e.excName ++ ": " ++ e.msg) }) ∧
    (∀ e : PyException, xt_limit_order (Except.error e) =
      { success := false, order_id := none, status := "error",
        error := some (e.excName ++ ": " ++ e.msg) }) ∧
    (∀ e : PyException, bitunix_market_order (Except.error e) =
      { success := false, order_id := none, status := "error",
        error := some e.msg }) ∧
    (∀ e : PyException, bitunix_limit_order (Except.error e) =
      { success := false, order_id := none, status := "error",
        error := some e.msg }) ∧
    (∀ e : PyException,
      strContainsSub (e.excName ++ ": " ++ e.msg) e.msg = true) ∧
    (∀ o : CcxtOrder, (xt_market_order (Except.ok o)).success = true) ∧
    (∀ o : CcxtOrder, (xt_limit_order (Except.ok o)).success = true) ∧
    (∀ r : ExecutionResult, bitunix_market_order (Except.ok r) = r) ∧
    (∀ r : ExecutionResult, bitunix_limit_order (Except.ok r) = r) := by
  refine ⟨fun e => rfl, fun e => rfl, fun e => rfl, fun e => rfl, ?_,
    fun o => rfl, fun o => rfl, fun r => rfl, fun r => rfl⟩
  intro e
  unfold strContainsSub
  have hdata : (e.excName ++ ": " ++ e.msg).data =
      (e.excName ++ ": ").data ++ e.msg.data := by
    simp [String.data_append]
  rw [hdata]
  exact listHasSub_append_left e.msg.data (e.excName ++ ": ").data
    e.msg.data (by simpa using listHasSub_self_append e.msg.data [])

/-- Mapping the conflict-update function over rows and filtering by the key
leaves one copy of the new data per previously matching row. -/
theorem upsert_filter_key_aux (sp : SubmittedPosition) (now : String)
    (db : List PositionRow) :
    (((db.map (fun r =>
        if rowKeyEq sp.chat_id sp.message_id r then
          ({ toSubmittedPosition := sp, created_at_utc := r.created_at_utc,
             updated_at_utc := now } : PositionRow)
        else r)).filter (rowKeyEq sp.chat_id sp.message_id)).map
      (fun r => r.toSubmittedPosition)) =
    List.replicate ((db.filter (rowKeyEq sp.chat_id sp.message_id)).length)
      sp := by
  induction db with
  | nil => simp
  | cons r rest ih =>
    by_cases h : rowKeyEq sp.chat_id sp.message_id r = true
    · have hkey : rowKeyEq sp.chat_id sp.message_id
          ({ toSubmittedPosition := sp, created_at_utc := r.created_at_utc,
             updated_at_utc := now } : PositionRow) = true := by
        simp [rowKeyEq]
      simp only [List.map_cons, h, if_true, List.filter_cons, hkey,
        List.length_cons, List.replicate_succ]
      simpa using ih
    · have h' : rowKeyEq sp.chat_id sp.message_id r = false := by
        cases hb : rowKeyEq sp.chat_id sp.message_id r with
        | true => exact absurd hb h
        | false => rfl
      simp only [List.map_cons, h', Bool.false_eq_true, if_false,
        List.filter_cons]
      simpa [h'] using ih

/-- After one upsert, the rows matching the key carry exactly the upserted
data: one fresh row when the key was absent, else one copy per previously
matching row (one, under the table's unique-key invariant). -/
theorem upsert_filter_key (db : List PositionRow) (sp : SubmittedPosition)
    (now : String) :
    ((upsert_submitted_position db sp now).filter
        (rowKeyEq sp.chat_id sp.message_id)).map
      (fun r => r.toSubmittedPosition) =
    (if db.any (rowKeyEq sp.chat_id sp.message_id) then
      List.replicate ((db.filter (rowKeyEq sp.chat_id sp.message_id)).length)
        sp
    else [sp]) := by
  unfold upsert_submitted_position
  by_cases h : db.any (rowKeyEq sp.chat_id sp.message_id)
  · rw [if_pos h, if_pos h]
    exact upsert_filter_key_aux sp now db
  · rw [if_neg h, if_neg h]
    have hnil : db.filter (rowKeyEq sp.chat_id sp.message_id) = [] := by
      rw [List.filter_eq_nil_iff]
      intro a ha hpa
      exact (List.any_eq_true.not.mp h) ⟨a, ha, hpa⟩
    have hkey : rowKeyEq sp.chat_id sp.message_id
        ({ toSubmittedPosition := sp, created_at_utc := now,
           updated_at_utc := now } : PositionRow) = true := by
      simp [rowKeyEq]
    rw [List.filter_append, hnil]
    simp [hkey]

/-- An upsert keeps the row count when the key is present and adds one row
otherwise. -/
theorem upsert_submitted_position_length (db : List PositionRow)
    (sp : SubmittedPosition) (now : String) :
    (upsert_submitted_position db sp now).length =
    (if db.any (rowKeyEq sp.chat_id sp.message_id) then db.length
     else db.length + 1) := by
  unfold upsert_submitted_position
  split <;> simp

/-- From a singleton filtered projection, the key is present exactly once. -/
theorem filter_key_singleton_cases {key : PositionRow → Bool}
    {db1 : List PositionRow} {sp : SubmittedPosition}
    (h : (db1.filter key).map (fun r => r.toSubmittedPosition) = [sp]) :
    (db1.filter key).length = 1 ∧ db1.any key = true := by
  have hlen : (db1.filter key).length = 1 := by
    have hx := congrArg List.length h
    simpa using hx
  refine ⟨hlen, ?_⟩
  rcases List.length_eq_one.mp hlen with ⟨a, ha⟩
  have hmem : a ∈ db1.filter key := by simp [ha]
  have hsplit := List.mem_filter.mp hmem
  exact List.any_eq_true.mpr ⟨a, hsplit.1, hsplit.2⟩

/-- C4: upserting the same `(chat_id, message_id)` key twice (starting from a
table satisfying the unique-key invariant) leaves exactly one row for the
key, whose data fields are those of the second upsert, and never more than
one new row overall. -/
theorem C4_upsert_idempotent :
    ∀ (db : List PositionRow) (sp1 sp2 : SubmittedPosition) (n1 n2 : String),
    sp1.chat_id = sp2.chat_id → sp1.message_id = sp2.message_id →
    (db.filter (rowKeyEq sp2.chat_id sp2.message_id)).length ≤ 1 →
    (((upsert_submitted_position (upsert_submitted_position db sp1 n1) sp2
          n2).filter (rowKeyEq sp2.chat_id sp2.message_id)).map
        (fun r => r.toSubmittedPosition) = [sp2]) ∧
    (upsert_submitted_position (upsert_submitted_position db sp1 n1) sp2
        n2).length ≤ db.length + 1 := by
  intro db sp1 sp2 n1 n2 hc hm hlen
  have h1 := upsert_filter_key db sp1 n1
  rw [hc, hm] at h1
  have h1' : ((upsert_submitted_position db sp1 n1).filter
      (rowKeyEq sp2.chat_id sp2.message_id)).map
      (fun r => r.toSubmittedPosition) = [sp1] := by
    by_cases hany : db.any (rowKeyEq sp2.chat_id sp2.message_id)
    · have hpos : 0 <
          (db.filter (rowKeyEq sp2.chat_id sp2.message_id)).length := by
        rcases List.any_eq_true.mp hany with ⟨x, hx, hpx⟩
        exact List.length_pos.mpr
          (List.ne_nil_of_mem (List.mem_filter.mpr ⟨hx, hpx⟩))
      have hone : (db.filter (rowKeyEq sp2.chat_id sp2.message_id)).length
          = 1 := le_antisymm hlen hpos
      rw [if_pos hany, hone] at h1
      simpa using h1
    · rw [if_neg hany] at h1
      exact h1
  obtain ⟨hflen1, hany1⟩ := filter_key_singleton_cases h1'
  have h2 := upsert_filter_key (upsert_submitted_position db sp1 n1) sp2 n2
  rw [if_pos hany1, hflen1] at h2
  refine ⟨by simpa using h2, ?_⟩
  have hl1 := upsert_submitted_position_length db sp1 n1
  have hl2 := upsert_submitted_position_length
    (upsert_submitted_position db sp1 n1) sp2 n2
  rw [if_pos hany1] at hl2
  rw [hl2, hl1]
  split <;> omega

/-- C4 witness: two upserts with the same key on an empty table leave a
single row carrying the second upsert's fields. -/
theorem C4_witness :
    (((upsert_submitted_position (upsert_submitted_position []
          { chat_id := 5, message_id := 9, symbol := "BTCUSDT", side := "buy",
            quantity := 0, price := none, leverage := none, order_id := none,
            status := "pending", error := none } "t1")
          { chat_id := 5, message_id := 9, symbol := "BTCUSDT", side := "buy",
            quantity := 2, price := some 100, leverage := some 10,
            order_id := some "42", status := "submitted", error := none }
          "t2").filter (rowKeyEq 5 9)).map
        (fun r => r.toSubmittedPosition) =
      [{ chat_id := 5, message_id := 9, symbol := "BTCUSDT", side := "buy",
         quantity := 2, price := some 100, leverage := some 10,
         order_id := some "42", status := "submitted", error := none }]) ∧
    (upsert_submitted_position (upsert_submitted_position []
          { chat_id := 5, message_id := 9, symbol := "BTCUSDT", side := "buy",
            quantity := 0, price := none, leverage := none, order_id := none,
            status := "pending", error := none } "t1")
          { chat_id := 5, message_id := 9, symbol := "BTCUSDT", side := "buy",
            quantity := 2, price := some 100, leverage := some 10,
            order_id := some "42", status := "submitted", error := none }
          "t2").length ≤ 0 + 1 :=
  C4_upsert_idempotent []
    { chat_id := 5, message_id := 9, symbol := "BTCUSDT", side := "buy",
      quantity := 0, price := none, leverage := none, order_id := none,
      status := "pending", error := none }
    { chat_id := 5, message_id := 9, symbol := "BTCUSDT", side := "buy",
      quantity := 2, price := some 100, leverage := some 10,
      order_id := some "42", status := "submitted", error := none }
    "t1" "t2" rfl rfl (by simp)

/-- A `min`-fold over rationals lands in the list. -/
theorem foldl_min_mem_rat (l : List ℚ) :
    ∀ x : ℚ, l.foldl min x ∈ x :: l := by
  induction l with
  | nil => intro x; simp
  | cons y ys ih =>
    intro x
    have h := ih (min x y)
    rcases min_choice x y with hm | hm <;> rw [hm] at h <;>
      simp only [List.foldl_cons, hm] <;> rcases List.mem_cons.mp h with h' | h'
    · exact List.mem_cons.mpr (Or.inl h')
    · exact List.mem_cons.mpr (Or.inr (List.mem_cons.mpr (Or.inr h')))
    · exact List.mem_cons.mpr (Or.inr (List.mem_cons.mpr (Or.inl h')))
    · exact List.mem_cons.mpr (Or.inr (List.mem_cons.mpr (Or.inr h')))

/-- A `min`-fold over rationals is a lower bound of seed and list. -/
theorem foldl_min_le_rat (l : List ℚ) :
    ∀ x : ℚ, l.foldl min x ≤ x ∧ ∀ b ∈ l, l.foldl min x ≤ b := by
  induction l with
  | nil => intro x; exact ⟨le_refl x, by simp⟩
  | cons y ys ih =>
    intro x
    obtain ⟨h1, h2⟩ := ih (min x y)
    simp only [List.foldl_cons]
    refine ⟨le_trans h1 (min_le_left x y), ?_⟩
    intro b hb
    rcases List.mem_cons.mp hb with rfl | h
    · exact le_trans h1 (min_le_right x b)
    · exact h2 b h

/-- A `max`-fold over rationals lands in the list. -/
theorem foldl_max_mem_rat (l : List ℚ) :
    ∀ x : ℚ, l.foldl max x ∈ x :: l := by
  induction l with
  | nil => intro x; simp
  | cons y ys ih =>
    intro x
    have h := ih (max x y)
    rcases max_choice x y with hm | hm <;> rw [hm] at h <;>
      simp only [List.foldl_cons, hm] <;> rcases List.mem_cons.mp h with h' | h'
    · exact List.mem_cons.mpr (Or.inl h')
    · exact List.mem_cons.mpr (Or.inr (List.mem_cons.mpr (Or.inr h')))
    · exact List.mem_cons.mpr (Or.inr (List.mem_cons.mpr (Or.inl h')))
    · exact List.mem_cons.mpr (Or.inr (List.mem_cons.mpr (Or.inr h')))

/-- A `max`-fold over rationals is an upper bound of seed and list. -/
theorem foldl_max_le_rat (l : List ℚ) :
    ∀ x : ℚ, x ≤ l.foldl max x ∧ ∀ b ∈ l, b ≤ l.foldl max x := by
  induction l with
  | nil => intro x; exact ⟨le_refl x, by simp⟩
  | cons y ys ih =>
    intro x
    obtain ⟨h1, h2⟩ := ih (max x y)
    simp only [List.foldl_cons]
    refine ⟨le_trans (le_max_left x y) h1, ?_⟩
    intro b hb
    rcases List.mem_cons.mp hb with rfl | h
    · exact le_trans (le_max_right x b) h1
    · exact h2 b h

/-- `min?` of a non-empty list of rationals is its least element. -/
theorem min?_spec_rat (x : ℚ) (xs : List ℚ) :
    ∃ m, (x :: xs).min? = some m ∧ m ∈ x :: xs ∧ ∀ b ∈ x :: xs, m ≤ b := by
  refine ⟨xs.foldl min x, by simp [List.min?], foldl_min_mem_rat xs x, ?_⟩
  intro b hb
  obtain ⟨h1, h2⟩ := foldl_min_le_rat xs x
  rcases List.mem_cons.mp hb with h | h
  · exact h ▸ h1
  · exact h2 b h

/-- `max?` of a non-empty list of rationals is its greatest element. -/
theorem max?_spec_rat (x : ℚ) (xs : List ℚ) :
    ∃ m, (x :: xs).max? = some m ∧ m ∈ x :: xs ∧ ∀ b ∈ x :: xs, b ≤ m := by
  refine ⟨xs.foldl max x, by simp [List.max?], foldl_max_mem_rat xs x, ?_⟩
  intro b hb
  obtain ⟨h1, h2⟩ := foldl_max_le_rat xs x
  rcases List.mem_cons.mp hb with h | h
  · exact h ▸ h1
  · exact h2 b h

/-- C5 (amended): on the Bitunix executor path the attached bracket levels
are the side-dependent extremes (long: take-profit = least take-profit,
stop-loss = greatest stop-loss; non-long sides mirrored), while the XT path's
`build_futures_order_params` always attaches the FIRST element of each list,
regardless of side. -/
theorem C5_bracket_levels_spec :
    (∀ (pos : Option String) (sls : List ℚ) (t : ℚ) (tps : List ℚ),
      myLower (pos.getD "") = "long" →
      ∃ m, (bitunix_bracket_levels pos sls (t :: tps)).1 = some m ∧
        m ∈ t :: tps ∧ ∀ x ∈ t :: tps, m ≤ x) ∧
    (∀ (pos : Option String) (s : ℚ) (sls : List ℚ) (tps : List ℚ),
      myLower (pos.getD "") = "long" →
      ∃ m, (bitunix_bracket_levels pos (s :: sls) tps).2 = some m ∧
        m ∈ s :: sls ∧ ∀ x ∈ s :: sls, x ≤ m) ∧
    (∀ (pos : Option String) (sls : List ℚ) (t : ℚ) (tps : List ℚ),
      myLower (pos.getD "") ≠ "long" →
      ∃ m, (bitunix_bracket_levels pos sls (t :: tps)).1 = some m ∧
        m ∈ t :: tps ∧ ∀ x ∈ t :: tps, x ≤ m) ∧
    (∀ (pos : Option String) (s : ℚ) (sls : List ℚ) (tps : List ℚ),
      myLower (pos.getD "") ≠ "long" →
      ∃ m, (bitunix_bracket_levels pos (s :: sls) tps).2 = some m ∧
        m ∈ s :: sls ∧ ∀ x ∈ s :: sls, m ≤ x) ∧
    (∀ (lev : Option ℚ) (s t : ℚ) (sls tps : List ℚ),
      build_futures_order_params lev (some (s :: sls)) (some (t :: tps)) =
        { leverage := lev, stopLossPrice := some s,
          takeProfitPrice := some t }) := by
  refine ⟨?_, ?_, ?_, ?_, ?_⟩
  · intro pos sls t tps hl
    have hb : (myLower (pos.getD "") == "long") = true := by
      simp [hl]
    simp only [bitunix_bracket_levels, hb, if_true]
    exact min?_spec_rat t tps
  · intro pos s sls tps hl
    have hb : (myLower (pos.getD "") == "long") = true := by
      simp [hl]
    simp only [bitunix_bracket_levels, hb, if_true]
    exact max?_spec_rat s sls
  · intro pos sls t tps hl
    have hb : (myLower (pos.getD "") == "long") = false := by
      simp [hl]
    simp only [bitunix_bracket_levels, hb, Bool.false_eq_true, if_false]
    exact max?_spec_rat t tps
  · intro pos s sls tps hl
    have hb : (myLower (pos.getD "") == "long") = false := by
      simp [hl]
    simp only [bitunix_bracket_levels, hb, Bool.false_eq_true, if_false]
    exact min?_spec_rat s sls
  · intro lev s t sls tps
    rfl

/-- C5 witness: for a long with take-profits `[5, 6]` and stop-losses
`[1, 2]`, the Bitunix bracket take-profit is the least take-profit level. -/
theorem C5_witness :
    ∃ m, (bitunix_bracket_levels (some "long") [1, 2] [5, 6]).1 = some m ∧
      m ∈ [(5 : ℚ), 6] ∧ ∀ x ∈ [(5 : ℚ), 6], m ≤ x :=
  C5_bracket_levels_spec.1 (some "long") [1, 2] 5 [6] (by decide)

/-- Environment for the C5 counterexample: live price 100, first order call
succeeds. -/
def envC5 : ExchangeEnv :=
  { price := fun _ => some 100
    balance := fun _ => some 1000
    market_order := fun _ => okSubmitted
    limit_order := fun _ => okSubmitted }

/-- C5 counterexample: on the XT path, a long signal with ascending
stop-losses `[1, 2]` places an order whose attached `stopLossPrice` is the
FIRST level 1, not the side-dependent extreme `max = 2` the claim requires
on every adapter path that attaches protective levels. -/
theorem C5_counterexample :
    (execute_signal cfgXT envC5 (some "BTC") (some "long") none none (some 1)
        (some [1, 2]) (some [5, 6]) "market").2 =
      [NetEvent.fetchPrice "BTC/USDT:USDT",
       NetEvent.orderCall 1 "BTC/USDT:USDT" "buy" 1
         { leverage := none, stopLossPrice := some 1,
           takeProfitPrice := some 5 }] ∧
    ([1, 2] : List ℚ).max? = some 2 ∧ some (1 : ℚ) ≠ some 2 := by
  refine ⟨?_, by simp [List.max?, List.foldl, max_def], by norm_num⟩
  have hanom : is_anomalous_signal (some "BTC") (some "long") = false := by
    decide
  have hdev : price_deviation_too_high none (some 100)
      cfgXT.max_price_deviation_pct = false := by
    simp [price_deviation_too_high]
  have htr : pyTruthyQ (some (100 : ℚ)) = some 100 := by
    norm_num [pyTruthyQ]
  simp only [execute_signal, hanom, Bool.false_eq_true, if_false]
  simp only [envC5, htr, hdev, Bool.false_eq_true, if_false]
  norm_num
  rw [retry_loop]
  simp [adapter_call, envC5, okSubmitted, cfgXT, xt_swap_symbol,
    normalize_token_for_crypto, myUpper, myLower,
    build_futures_order_params]

/-- All network reads performed by the sizing routine are price/balance
fetches (never order placements or sleeps). -/
theorem dq_events_fetches (cfg : Config) (env : ExchangeEnv)
    (token : Option String) (entry : Option ℚ) :
    ((determine_order_quantity cfg env token entry).2).all
      NetEvent.isFetch = true := by
  unfold determine_order_quantity
  by_cases h : pyTruthyS token
  · simp only [h, Bool.not_true, Bool.false_eq_true, if_false]
    cases hcp : sizing_current_price cfg env (token.getD "") entry with
    | none => simp [NetEvent.isFetch]
    | some c =>
      by_cases hc0 : c ≤ 0
      · simp [hc0, NetEvent.isFetch]
      · cases hb : env.balance cfg.order_quote with
        | none => simp [hc0, hb, NetEvent.isFetch]
        | some b =>
          by_cases hb0 : b ≤ 0
          · simp [hc0, hb, hb0, NetEvent.isFetch]
          · by_cases hbud : b * (9 / 10) < 10
            · simp [hc0, hb, hb0, hbud, NetEvent.isFetch]
            · simp [hc0, hb, hb0, hbud, NetEvent.isFetch]
  · simp [h]

/-- Rows matching the key of an `UPDATE ... WHERE` carry the new status and
error afterwards. -/
theorem update_position_status_mem_status (db : List PositionRow)
    (c m : Int) (s : String) (e : Option String) (now : String) :
    ∀ r ∈ update_position_status db c m s e now,
      rowKeyEq c m r = true → r.status = s ∧ r.error = e := by
  intro r hr hk
  unfold update_position_status at hr
  rcases List.mem_map.mp hr with ⟨x, hx, hfx⟩
  by_cases h : rowKeyEq c m x = true
  · rw [← hfx]
    simp [h]
  · rw [← hfx] at hk
    simp [h] at hk

/-- If some row matches the key, the `UPDATE` leaves a matching row with the
new status and error. -/
theorem update_position_status_exists (db : List PositionRow) (c m : Int)
    (s : String) (e : Option String) (now : String)
    (hex : ∃ r ∈ db, rowKeyEq c m r = true) :
    ∃ r ∈ update_position_status db c m s e now,
      rowKeyEq c m r = true ∧ r.status = s ∧ r.error = e := by
  rcases hex with ⟨x, hx, hk⟩
  refine ⟨{ x with status := s, error := e, updated_at_utc := now },
    ?_, ?_, rfl, rfl⟩
  · unfold update_position_status
    exact List.mem_map.mpr ⟨x, hx, by simp [hk]⟩
  · simpa [rowKeyEq] using hk

/-- If no row matches the key, the `UPDATE` is a no-op. -/
theorem update_position_status_no_match (db : List PositionRow) (c m : Int)
    (s : String) (e : Option String) (now : String)
    (h : ∀ r ∈ db, rowKeyEq c m r = false) :
    update_position_status db c m s e now = db := by
  unfold update_position_status
  have hmap : db.map (fun r =>
      if rowKeyEq c m r then
        { r with status := s, error := e, updated_at_utc := now }
      else r) = db.map id :=
    List.map_congr_left (fun r hr => by simp [h r hr])
  simpa using hmap

/-- The `UPDATE` never changes the row count. -/
theorem update_position_status_length (db : List PositionRow) (c m : Int)
    (s : String) (e : Option String) (now : String) :
    (update_position_status db c m s e now).length = db.length := by
  simp [update_position_status]

/-- An upsert leaves at least one row carrying the key. -/
theorem upsert_exists_key (db : List PositionRow) (sp : SubmittedPosition)
    (now : String) :
    ∃ r ∈ upsert_submitted_position db sp now,
      rowKeyEq sp.chat_id sp.message_id r = true := by
  unfold upsert_submitted_position
  by_cases h : db.any (rowKeyEq sp.chat_id sp.message_id)
  · rw [if_pos h]
    rcases List.any_eq_true.mp h with ⟨x, hx, hk⟩
    have hk' := hk
    simp only [rowKeyEq, Bool.and_eq_true, beq_iff_eq] at hk'
    obtain ⟨h1, h2⟩ := hk'
    refine ⟨_, List.mem_map.mpr ⟨x, hx, rfl⟩, ?_⟩
    simp [rowKeyEq, h1, h2]
  · rw [if_neg h]
    exact ⟨_, List.mem_append.mpr (Or.inr (List.mem_singleton.mpr rfl)),
      by simp [rowKeyEq]⟩

/-- C1 (amended): with auto-execution enabled and a validly configured
venue, (A) a signal with empty/missing token terminates in persisted status
`rejected_no_quantity` — not `rejected_anomaly` — with no network call at
all (sizing short-circuits before fetching); (B) on the XT venue an
anomalous signal that survives sizing (positive quantity) is rejected by
`execute_signal` with status `rejected_anomaly` before any order placement,
though sizing performs price/balance fetches first; (C) on the Bitunix venue
no anomaly check runs at all: any signal with positive sized quantity
reaches a live order call. -/
theorem C1_anomaly_rejection_spec (cfg : Config) (env : ExchangeEnv)
    (db : List PositionRow) (sig : TradeSignal) (now : String)
    (hauto : cfg.enable_auto_execution = true) :
    (cfg.exchange = "xt" → pyTruthyS cfg.xt_api_key = true →
     pyTruthyS cfg.xt_secret = true → pyTruthyS sig.token = false →
      (submit_position_if_enabled cfg env db sig now).1 = none ∧
      (submit_position_if_enabled cfg env db sig now).2.2 = [] ∧
      (∃ r ∈ (submit_position_if_enabled cfg env db sig now).2.1,
        rowKeyEq sig.chat_id sig.message_id r = true ∧
        r.status = "rejected_no_quantity") ∧
      (∀ r ∈ (submit_position_if_enabled cfg env db sig now).2.1,
        rowKeyEq sig.chat_id sig.message_id r = true →
        r.status = "rejected_no_quantity")) ∧
    (cfg.exchange = "xt" → pyTruthyS cfg.xt_api_key = true →
     pyTruthyS cfg.xt_secret = true →
     is_anomalous_signal sig.token sig.position_type = true →
     0 < (determine_order_quantity cfg env sig.token sig.entry_price).1 →
      (submit_position_if_enabled cfg env db sig now).1 =
        some { success := false, order_id := none,
               status := "rejected_anomaly",
               error := some "Signal fields invalid or missing" } ∧
      ((submit_position_if_enabled cfg env db sig now).2.2).all
        NetEvent.isFetch = true ∧
      (∃ r ∈ (submit_position_if_enabled cfg env db sig now).2.1,
        rowKeyEq sig.chat_id sig.message_id r = true ∧
        r.status = "rejected_anomaly")) ∧
    (cfg.exchange = "bitunix" → pyTruthyS cfg.bitunix_api_key = true →
     pyTruthyS cfg.bitunix_secret = true →
     0 < (determine_order_quantity cfg env sig.token sig.entry_price).1 →
      (submit_position_if_enabled cfg env db sig now).1 =
        some (env.market_order 1) ∧
      ((submit_position_if_enabled cfg env db sig now).2.2).any
        NetEvent.isOrderPlacement = true) := by
  refine ⟨?_, ?_, ?_⟩
  · intro hx hk hs htok
    have hdq : determine_order_quantity cfg env sig.token sig.entry_price =
        (0, []) := by
      simp [determine_order_quantity, htok]
    have hred : submit_position_if_enabled cfg env db sig now =
        (none,
         update_position_status
           (upsert_submitted_position db
             { chat_id := sig.chat_id, message_id := sig.message_id,
               symbol := myUpper (sig.token.getD "") ++ "/" ++ cfg.order_quote,
               side := if myLower (sig.position_type.getD "") = "long" then
                 "buy" else "sell",
               quantity := 0, price := sig.entry_price,
               leverage := sig.leverage, order_id := none,
               status := "pending", error := none } now)
           sig.chat_id sig.message_id "rejected_no_quantity"
           (some "Unable to compute order quantity") now,
         []) := by
      unfold submit_position_if_enabled
      rw [if_neg (by simp [hauto])]
      rw [if_neg (by simp [hk, hs])]
      rw [if_neg (by simp [hx])]
      rw [if_neg (by simp [hx])]
      simp only [hx, hdq]
      norm_num
    rw [hred]
    refine ⟨rfl, rfl, ?_, ?_⟩
    · have hex := upsert_exists_key db
        { chat_id := sig.chat_id, message_id := sig.message_id,
          symbol := myUpper (sig.token.getD "") ++ "/" ++ cfg.order_quote,
          side := if myLower (sig.position_type.getD "") = "long" then
            "buy" else "sell",
          quantity := 0, price := sig.entry_price,
          leverage := sig.leverage, order_id := none,
          status := "pending", error := none } now
      rcases update_position_status_exists _ sig.chat_id sig.message_id
        "rejected_no_quantity" (some "Unable to compute order quantity") now
        hex with ⟨r, hr, hkey, hst, _⟩
      exact ⟨r, hr, hkey, hst⟩
    · intro r hr hkey
      exact (update_position_status_mem_status _ _ _ _ _ _ r hr hkey).1
  · intro hx hk hs hanom hq
    have hex : execute_signal cfg env sig.token sig.position_type
        sig.entry_price sig.leverage
        (some (determine_order_quantity cfg env sig.token sig.entry_price).1)
        (some sig.stop_losses) (some sig.take_profits) "market" =
        ({ success := false, order_id := none, status := "rejected_anomaly",
           error := some "Signal fields invalid or missing" }, []) := by
      unfold execute_signal
      rw [if_pos hanom]
    have hred : submit_position_if_enabled cfg env db sig now =
        (some { success := false, order_id := none,
                status := "rejected_anomaly",
                error := some "Signal fields invalid or missing" },
         update_position_status
           (upsert_submitted_position db
             { chat_id := sig.chat_id, message_id := sig.message_id,
               symbol := myUpper (sig.token.getD "") ++ "/" ++ cfg.order_quote,
               side := if myLower (sig.position_type.getD "") = "long" then
                 "buy" else "sell",
               quantity := 0, price := sig.entry_price,
               leverage := sig.leverage, order_id := none,
               status := "pending", error := none } now)
           sig.chat_id sig.message_id "rejected_anomaly"
           (some "Signal fields invalid or missing") now,
         (determine_order_quantity cfg env sig.token sig.entry_price).2) := by
      unfold submit_position_if_enabled
      rw [if_neg (by simp [hauto])]
      rw [if_neg (by simp [hk, hs])]
      rw [if_neg (by simp [hx])]
      rw [if_neg (by simp [hx])]
      rw [if_neg (not_le.mpr hq)]
      simp only [hx, hex]
      norm_num
    rw [hred]
    refine ⟨rfl, ?_, ?_⟩
    · exact dq_events_fetches cfg env sig.token sig.entry_price
    · have hex2 := upsert_exists_key db
        { chat_id := sig.chat_id, message_id := sig.message_id,
          symbol := myUpper (sig.token.getD "") ++ "/" ++ cfg.order_quote,
          side := if myLower (sig.position_type.getD "") = "long" then
            "buy" else "sell",
          quantity := 0, price := sig.entry_price,
          leverage := sig.leverage, order_id := none,
          status := "pending", error := none } now
      rcases update_position_status_exists _ sig.chat_id sig.message_id
        "rejected_anomaly" (some "Signal fields invalid or missing") now
        hex2 with ⟨r, hr, hkey, hst, _⟩
      exact ⟨r, hr, hkey, hst⟩
  · intro hb hk hs hq
    have hxb : (cfg.exchange == "xt") = false := by simp [hb]
    have hred1 : (submit_position_if_enabled cfg env db sig now).1 =
        some (env.market_order 1) ∧
        (submit_position_if_enabled cfg env db sig now).2.2 =
        (determine_order_quantity cfg env sig.token sig.entry_price).2 ++
          [NetEvent.bitunixOrder
            (bitunix_swap_symbol (sig.token.getD "") cfg.order_quote)
            (if myLower (sig.position_type.getD "") = "long" then "BUY"
             else "SELL")
            (determine_order_quantity cfg env sig.token sig.entry_price).1
            (bitunix_bracket_levels sig.position_type sig.stop_losses
              sig.take_profits).1
            (bitunix_bracket_levels sig.position_type sig.stop_losses
              sig.take_profits).2] := by
      unfold submit_position_if_enabled
      rw [if_neg (by simp [hauto])]
      rw [if_neg (by simp [hxb])]
      rw [if_neg (by simp [hk, hs])]
      rw [if_neg (by simp [hb])]
      rw [if_neg (not_le.mpr hq)]
      simp only [hxb, Bool.false_eq_true, if_false]
      by_cases hsucc : (env.market_order 1).success = true
      · simp [hsucc]
      · simp [hsucc]
    refine ⟨hred1.1, ?_⟩
    rw [hred1.2]
    rw [List.any_append]
    simp [NetEvent.isOrderPlacement]

/-- Environment whose reads all fail and whose order calls fail transiently;
the config-rejection and empty-token paths never consult it. -/
def envNull : ExchangeEnv :=
  { price := fun _ => none
    balance := fun _ => none
    market_order := fun _ => errTransient
    limit_order := fun _ => errTransient }

/-- Scenario B signal: empty token, long position. -/
def sigC1 : TradeSignal :=
  { chat_id := 1, message_id := 2, token := some "",
    position_type := some "long", entry_price := none, leverage := none,
    stop_losses := [], take_profits := [], model_name := none }

/-- C1 witness: the empty-token signal ends in `rejected_no_quantity` with an
empty network trace on a concrete run. -/
theorem C1_witness :
    (submit_position_if_enabled cfgXT envNull [] sigC1 "t").1 = none ∧
    (submit_position_if_enabled cfgXT envNull [] sigC1 "t").2.2 = [] ∧
    (∃ r ∈ (submit_position_if_enabled cfgXT envNull [] sigC1 "t").2.1,
      rowKeyEq sigC1.chat_id sigC1.message_id r = true ∧
      r.status = "rejected_no_quantity") ∧
    (∀ r ∈ (submit_position_if_enabled cfgXT envNull [] sigC1 "t").2.1,
      rowKeyEq sigC1.chat_id sigC1.message_id r = true →
      r.status = "rejected_no_quantity") :=
  (C1_anomaly_rejection_spec cfgXT envNull [] sigC1 "t" rfl).1 rfl
    (by decide) (by decide) (by decide)

/-- C1 counterexample: for token `""`, position `"long"`, auto-execution on
and valid XT credentials, the pipeline terminates with the persisted status
`rejected_no_quantity`, not the claimed `rejected_anomaly` (there is indeed
no price or balance fetch — the trace is empty). -/
theorem C1_counterexample :
    submit_position_if_enabled cfgXT envNull [] sigC1 "t" =
      (none,
       [{ chat_id := 1, message_id := 2, symbol := "/USDT", side := "buy",
          quantity := 0, price := none, leverage := none, order_id := none,
          status := "rejected_no_quantity",
          error := some "Unable to compute order quantity",
          created_at_utc := "t", updated_at_utc := "t" }],
       []) ∧ "rejected_no_quantity" ≠ "rejected_anomaly" := by
  constructor
  · decide
  · decide

/-- C6 (amended): with auto-execution enabled, an unknown venue or missing
venue credentials cause the pipeline to return `None` with no network call,
issuing only an `UPDATE` of the `(chat_id, message_id)` row to
`rejected_config`.  Because that `UPDATE` runs before the `pending` row is
ever inserted, it persists a `rejected_config` row only when a row for the
key already exists; for a fresh message the table is left unchanged and no
row is created. -/
theorem C6_config_rejection_spec (cfg : Config) (env : ExchangeEnv)
    (db : List PositionRow) (sig : TradeSignal) (now : String)
    (hauto : cfg.enable_auto_execution = true) :
    (cfg.exchange ≠ "xt" → cfg.exchange ≠ "bitunix" →
      (submit_position_if_enabled cfg env db sig now).1 = none ∧
      (submit_position_if_enabled cfg env db sig now).2.2 = [] ∧
      (submit_position_if_enabled cfg env db sig now).2.1 =
        update_position_status db sig.chat_id sig.message_id
          "rejected_config" (some ("Unknown exchange: " ++ cfg.exchange))
          now ∧
      ((∀ r ∈ db, rowKeyEq sig.chat_id sig.message_id r = false) →
        (submit_position_if_enabled cfg env db sig now).2.1 = db) ∧
      ((∃ r ∈ db, rowKeyEq sig.chat_id sig.message_id r = true) →
        ∃ r ∈ (submit_position_if_enabled cfg env db sig now).2.1,
          rowKeyEq sig.chat_id sig.message_id r = true ∧
          r.status = "rejected_config") ∧
      (submit_position_if_enabled cfg env db sig now).2.1.length =
        db.length) ∧
    (cfg.exchange = "xt" →
     (pyTruthyS cfg.xt_api_key && pyTruthyS cfg.xt_secret) = false →
      (submit_position_if_enabled cfg env db sig now).1 = none ∧
      (submit_position_if_enabled cfg env db sig now).2.2 = [] ∧
      ((∀ r ∈ db, rowKeyEq sig.chat_id sig.message_id r = false) →
        (submit_position_if_enabled cfg env db sig now).2.1 = db) ∧
      ((∃ r ∈ db, rowKeyEq sig.chat_id sig.message_id r = true) →
        ∃ r ∈ (submit_position_if_enabled cfg env db sig now).2.1,
          rowKeyEq sig.chat_id sig.message_id r = true ∧
          r.status = "rejected_config")) ∧
    (cfg.exchange = "bitunix" →
     (pyTruthyS cfg.bitunix_api_key && pyTruthyS cfg.bitunix_secret) =
       false →
      (submit_position_if_enabled cfg env db sig now).1 = none ∧
      (submit_position_if_enabled cfg env db sig now).2.2 = [] ∧
      ((∀ r ∈ db, rowKeyEq sig.chat_id sig.message_id r = false) →
        (submit_position_if_enabled cfg env db sig now).2.1 = db) ∧
      ((∃ r ∈ db, rowKeyEq sig.chat_id sig.message_id r = true) →
        ∃ r ∈ (submit_position_if_enabled cfg env db sig now).2.1,
          rowKeyEq sig.chat_id sig.message_id r = true ∧
          r.status = "rejected_config")) := by
  refine ⟨?_, ?_, ?_⟩
  · intro hx hbx
    have hred : submit_position_if_enabled cfg env db sig now =
        (none,
         update_position_status db sig.chat_id sig.message_id
           "rejected_config" (some ("Unknown exchange: " ++ cfg.exchange))
           now,
         []) := by
      unfold submit_position_if_enabled
      rw [if_neg (by simp [hauto])]
      rw [if_neg (by simp [hx])]
      rw [if_neg (by simp [hbx])]
      rw [if_pos (by simp [hx, hbx])]
    rw [hred]
    refine ⟨rfl, rfl, rfl, ?_, ?_, ?_⟩
    · intro hnone
      exact update_position_status_no_match db _ _ _ _ _ hnone
    · intro hex
      rcases update_position_status_exists db sig.chat_id sig.message_id
        "rejected_config" (some ("Unknown exchange: " ++ cfg.exchange)) now
        hex with ⟨r, hr, hkey, hst, _⟩
      exact ⟨r, hr, hkey, hst⟩
    · exact update_position_status_length db _ _ _ _ _
  · intro hx hcred
    have hred : submit_position_if_enabled cfg env db sig now =
        (none,
         update_position_status db sig.chat_id sig.message_id
           "rejected_config" (some "XT credentials not configured") now,
         []) := by
      unfold submit_position_if_enabled
      rw [if_neg (by simp [hauto])]
      rw [if_pos (by simp [hx, hcred])]
    rw [hred]
    refine ⟨rfl, rfl, ?_, ?_⟩
    · intro hnone
      exact update_position_status_no_match db _ _ _ _ _ hnone
    · intro hex
      rcases update_position_status_exists db sig.chat_id sig.message_id
        "rejected_config" (some "XT credentials not configured") now
        hex with ⟨r, hr, hkey, hst, _⟩
      exact ⟨r, hr, hkey, hst⟩
  · intro hb hcred
    have hxb : (cfg.exchange == "xt") = false := by simp [hb]
    have hred : submit_position_if_enabled cfg env db sig now =
        (none,
         update_position_status db sig.chat_id sig.message_id
           "rejected_config" (some "Bitunix credentials not configured") now,
         []) := by
      unfold submit_position_if_enabled
      rw [if_neg (by simp [hauto])]
      rw [if_neg (by simp [hxb])]
      rw [if_pos (by simp [hb, hcred])]
    rw [hred]
    refine ⟨rfl, rfl, ?_, ?_⟩
    · intro hnone
      exact update_position_status_no_match db _ _ _ _ _ hnone
    · intro hex
      rcases update_position_status_exists db sig.chat_id sig.message_id
        "rejected_config" (some "Bitunix credentials not configured") now
        hex with ⟨r, hr, hkey, hst, _⟩
      exact ⟨r, hr, hkey, hst⟩

/-- Unknown-venue config used by the C6 witness and counterexample. -/
def cfgUnknown : Config :=
  { exchange := "lbank", enable_auto_execution := true,
    xt_api_key := none, xt_secret := none,
    bitunix_api_key := none, bitunix_secret := none,
    order_quote := "USDT", order_notional := 10,
    max_price_deviation_pct := 1 / 50 }

/-- Scenario signal for the C6 runs. -/
def sigC6 : TradeSignal :=
  { chat_id := 3, message_id := 4, token := some "BTC",
    position_type := some "long", entry_price := some 100, leverage := none,
    stop_losses := [], take_profits := [], model_name := none }

/-- C6 witness: on a fresh (empty) table, an unknown venue produces no
network traffic, returns `None`, and leaves the table unchanged. -/
theorem C6_witness :
    (submit_position_if_enabled cfgUnknown envNull [] sigC6 "t").1 = none ∧
    (submit_position_if_enabled cfgUnknown envNull [] sigC6 "t").2.2 = [] ∧
    (submit_position_if_enabled cfgUnknown envNull [] sigC6 "t").2.1 = [] :=
  ⟨((C6_config_rejection_spec cfgUnknown envNull [] sigC6 "t" rfl).1
      (by decide) (by decide)).1,
   ((C6_config_rejection_spec cfgUnknown envNull [] sigC6 "t" rfl).1
      (by decide) (by decide)).2.1,
   ((C6_config_rejection_spec cfgUnknown envNull [] sigC6 "t" rfl).1
      (by decide) (by decide)).2.2.2.1 (by intro r hr; cases hr)⟩

/-- C6 counterexample: with venue `"lbank"` (unknown) on a never-before-seen
message, the run indeed makes no network call — but it ends with NO
persisted SubmittedPosition row at all (the `rejected_config` UPDATE touches
a row that was never inserted), contradicting the claimed persisted terminal
`rejected_config` row. -/
theorem C6_counterexample :
    submit_position_if_enabled cfgUnknown envNull [] sigC6 "t" =
      (none, [], []) ∧
    ¬∃ r ∈ (submit_position_if_enabled cfgUnknown envNull [] sigC6
        "t").2.1, r.status = "rejected_config" := by
  constructor
  · decide
  · intro h
    rcases h with ⟨r, hr, _⟩
    have hempty : (submit_position_if_enabled cfgUnknown envNull [] sigC6
        "t").2.1 = [] := by decide
    rw [hempty] at hr
    cases hr

/-- Characters with incomparable code points are equal. -/
theorem char_eq_of_not_lt {a b : Char} (h1 : ¬a.val < b.val)
    (h2 : ¬b.val < a.val) : a = b := by
  apply Char.ext
  apply UInt32.ext
  show a.val.toBitVec.toNat = b.val.toBitVec.toNat
  rw [UInt32.lt_def, BitVec.lt_def] at h1 h2
  omega

/-- Code-point order on characters is transitive. -/
theorem char_val_lt_trans {a b c : Char} (h1 : a.val < b.val)
    (h2 : b.val < c.val) : a.val < c.val := by
  rw [UInt32.lt_def, BitVec.lt_def] at h1 h2 ⊢
  omega

/-- Two lists that are mutually not-less under `strLtL` are equal. -/
theorem strLtL_eq_of_not : ∀ l1 l2 : List Char,
    strLtL l1 l2 = false → strLtL l2 l1 = false → l1 = l2 := by
  intro l1
  induction l1 with
  | nil =>
    intro l2 h1 _
    cases l2 with
    | nil => rfl
    | cons b bs => simp [strLtL] at h1
  | cons a as ih =>
    intro l2 h1 h2
    cases l2 with
    | nil => simp [strLtL] at h2
    | cons b bs =>
      simp only [strLtL] at h1 h2
      by_cases hab : a.val < b.val
      · rw [if_pos hab] at h1
        exact absurd h1 (by simp)
      · by_cases hba : b.val < a.val
        · rw [if_pos hba] at h2
          exact absurd h2 (by simp)
        · rw [if_neg hab, if_neg hba] at h1
          rw [if_neg hba, if_neg hab] at h2
          have hc : a = b := char_eq_of_not_lt hab hba
          rw [hc, ih bs h1 h2]

/-- `strLtL` is transitive. -/
theorem strLtL_trans : ∀ l1 l2 l3 : List Char,
    strLtL l1 l2 = true → strLtL l2 l3 = true → strLtL l1 l3 = true := by
  intro l1
  induction l1 with
  | nil =>
    intro l2 l3 h1 h2
    cases l2 with
    | nil => simp [strLtL] at h1
    | cons b bs =>
      cases l3 with
      | nil => simp [strLtL] at h2
      | cons c cs => simp [strLtL]
  | cons a as ih =>
    intro l2 l3 h1 h2
    cases l2 with
    | nil => simp [strLtL] at h1
    | cons b bs =>
      cases l3 with
      | nil => simp [strLtL] at h2
      | cons c cs =>
        simp only [strLtL] at h1 h2 ⊢
        by_cases hbc : b.val < c.val
        · by_cases hab : a.val < b.val
          · rw [if_pos (char_val_lt_trans hab hbc)]
          · by_cases hba : b.val < a.val
            · rw [if_neg hab, if_pos hba] at h1
              exact absurd h1 (by simp)
            · have hc : a = b := char_eq_of_not_lt hab hba
              rw [if_pos (hc ▸ hbc)]
        · by_cases hcb : c.val < b.val
          · rw [if_neg hbc, if_pos hcb] at h2
            exact absurd h2 (by simp)
          · have hc2 : b = c := char_eq_of_not_lt hbc hcb
            by_cases hab : a.val < b.val
            · rw [if_pos (hc2 ▸ hab)]
            · by_cases hba : b.val < a.val
              · rw [if_neg hab, if_pos hba] at h1
                exact absurd h1 (by simp)
              · have hc : a = b := char_eq_of_not_lt hab hba
                rw [if_neg hab, if_neg hba] at h1
                rw [if_neg hbc, if_neg hcb] at h2
                rw [if_neg (hc2 ▸ hab), if_neg (hc2 ▸ hc ▸ hba)]
                exact ih bs cs h1 h2

/-- The descending `(date_utc, message_id)` order is total. -/
theorem msgDescGe_total (a b : MsgRow) :
    msgDescGe a b = true ∨ msgDescGe b a = true := by
  unfold msgDescGe
  by_cases h1 : strLtL b.date_utc.data a.date_utc.data = true
  · left; simp [h1]
  · by_cases h2 : strLtL a.date_utc.data b.date_utc.data = true
    · right; simp [h2]
    · have h1' : strLtL b.date_utc.data a.date_utc.data = false :=
        Bool.eq_false_iff.mpr h1
      have h2' : strLtL a.date_utc.data b.date_utc.data = false :=
        Bool.eq_false_iff.mpr h2
      have heq : b.date_utc.data = a.date_utc.data :=
        strLtL_eq_of_not _ _ h1' h2'
      rcases le_total a.message_id b.message_id with h | h
      · right
        simp [heq, h]
      · left
        simp [heq, h]

/-- The descending `(date_utc, message_id)` order is transitive. -/
theorem msgDescGe_trans (a b c : MsgRow) (hab : msgDescGe a b = true)
    (hbc : msgDescGe b c = true) : msgDescGe a c = true := by
  unfold msgDescGe at hab hbc ⊢
  simp only [Bool.or_eq_true, Bool.and_eq_true, beq_iff_eq,
    decide_eq_true_eq] at hab hbc ⊢
  rcases hab with h1 | ⟨he1, hle1⟩
  · rcases hbc with h2 | ⟨he2, hle2⟩
    · exact Or.inl (strLtL_trans _ _ _ h2 h1)
    · exact Or.inl (he2 ▸ h1)
  · rcases hbc with h2 | ⟨he2, hle2⟩
    · exact Or.inl (he1 ▸ h2)
    · exact Or.inr ⟨he1.trans he2, le_trans hle2 hle1⟩

/-- Membership in the insertion step. -/
theorem mem_insertDescRow (r x : MsgRow) :
    ∀ l : List MsgRow, x ∈ insertDescRow r l ↔ x = r ∨ x ∈ l := by
  intro l
  induction l with
  | nil => simp [insertDescRow]
  | cons y ys ih =>
    unfold insertDescRow
    by_cases h : msgDescGe r y = true
    · simp [h]
    · simp only [h, Bool.false_eq_true, if_false, List.mem_cons, ih]
      tauto

/-- Inserting into a descending-sorted list keeps it sorted. -/
theorem pairwise_insertDescRow (r : MsgRow) :
    ∀ l : List MsgRow, l.Pairwise (fun a b => msgDescGe a b = true) →
    (insertDescRow r l).Pairwise (fun a b => msgDescGe a b = true) := by
  intro l
  induction l with
  | nil => intro _; simp [insertDescRow]
  | cons y ys ih =>
    intro hl
    rcases List.pairwise_cons.mp hl with ⟨hy, hys⟩
    unfold insertDescRow
    by_cases h : msgDescGe r y = true
    · rw [if_pos h]
      apply List.pairwise_cons.mpr
      refine ⟨?_, hl⟩
      intro z hz
      rcases List.mem_cons.mp hz with rfl | hz'
      · exact h
      · exact msgDescGe_trans r y z h (hy z hz')
    · rw [if_neg h]
      apply List.pairwise_cons.mpr
      refine ⟨?_, ih hys⟩
      intro z hz
      rcases (mem_insertDescRow r z ys).mp hz with rfl | hz'
      · rcases msgDescGe_total z y with h' | h'
        · exact absurd h' h
        · exact h'
      · exact hy z hz'

/-- The modelled SQL `ORDER BY date_utc DESC, message_id DESC` output is
descending-sorted. -/
theorem pairwise_sortRowsDesc :
    ∀ l : List MsgRow,
    (sortRowsDesc l).Pairwise (fun a b => msgDescGe a b = true) := by
  intro l
  induction l with
  | nil => simp [sortRowsDesc]
  | cons x xs ih => exact pairwise_insertDescRow x _ ih

/-- Sorting permutes nothing in or out. -/
theorem mem_sortRowsDesc (x : MsgRow) :
    ∀ l : List MsgRow, x ∈ sortRowsDesc l ↔ x ∈ l := by
  intro l
  induction l with
  | nil => simp [sortRowsDesc]
  | cons y ys ih =>
    unfold sortRowsDesc
    rw [mem_insertDescRow, ih]
    simp

/-- Chronological (ascending `(date_utc, message_id)`) order on message
dicts, the order the claim requires of the window after the reversal. -/
def msgRecChronLe (a b : MsgRec) : Bool :=
  strLtL a.date_utc.data b.date_utc.data ||
  (a.date_utc.data == b.date_utc.data && a.message_id ≤ b.message_id)

/-- Descending row order maps to chronological dict order, flipped. -/
theorem msgDescGe_to_chron {x y : MsgRow} (h : msgDescGe x y = true) :
    msgRecChronLe (msgRowToRec y) (msgRowToRec x) = true := by
  unfold msgDescGe at h
  unfold msgRecChronLe msgRowToRec
  simp only [Bool.or_eq_true, Bool.and_eq_true, beq_iff_eq,
    decide_eq_true_eq] at h ⊢
  rcases h with h | ⟨he, hle⟩
  · exact Or.inl h
  · exact Or.inr ⟨he.symm, hle⟩

/-- `_combine_messages_for_analysis` as one join over the tagged non-empty
messages. -/
theorem combine_eq (l : List MsgRec) :
    combine_messages_for_analysis l =
      myIntercalate "\n\n" (l.filterMap (fun m =>
        if strTrim m.text = "" then none else some (combined_part m))) := by
  cases l <;> rfl

/-- Messages whose stripped text is empty contribute nothing to the tagged
parts. -/
theorem filterMap_tag_filter :
    ∀ l : List MsgRec,
    l.filterMap (fun m =>
      if strTrim m.text = "" then none else some (combined_part m)) =
    (l.filter (fun m => !(strTrim m.text == ""))).filterMap (fun m =>
      if strTrim m.text = "" then none else some (combined_part m)) := by
  intro l
  induction l with
  | nil => rfl
  | cons m rest ih =>
    by_cases h : strTrim m.text = ""
    · simp [h, ih]
    · simp [h, ih]

/-- Every element of a join is a substring of it. -/
theorem intercalate_hasSub (sep : String) :
    ∀ (parts : List String) (p : String), p ∈ parts →
    strContainsSub (myIntercalate sep parts) p = true := by
  intro parts
  induction parts with
  | nil => intro p hp; cases hp
  | cons x xs ih =>
    intro p hp
    cases xs with
    | nil =>
      rcases List.mem_singleton.mp hp with rfl
      unfold strContainsSub myIntercalate
      simpa using listHasSub_self_append p.data []
    | cons y ys =>
      rcases List.mem_cons.mp hp with rfl | hp'
      · unfold strContainsSub myIntercalate
        rw [String.data_append, String.data_append, List.append_assoc]
        exact listHasSub_self_append p.data _
      · unfold strContainsSub myIntercalate
        rw [String.data_append, String.data_append, List.append_assoc]
        have ih' : listHasSub p.data
            (myIntercalate sep (y :: ys)).data = true := ih p hp'
        exact listHasSub_append_left p.data _ _
          (listHasSub_append_left p.data _ _ ih')

/-- C9: the window aggregator's output is chronologically sorted, at most
the window size long, and drawn from the requested channel; the combined
block omits empty-stripped messages and contains the tagged line of every
included message; and the pipeline skips inference exactly when no messages
are found. -/
theorem C9_window_aggregation_spec :
    (∀ (db : List MsgRow) (chat : Int) (w : ℕ),
      (get_recent_messages db chat w).Pairwise
        (fun a b => msgRecChronLe a b = true)) ∧
    (∀ (db : List MsgRow) (chat : Int) (w : ℕ),
      (get_recent_messages db chat w).length ≤ w) ∧
    (∀ (db : List MsgRow) (chat : Int) (w : ℕ),
      ∀ m ∈ get_recent_messages db chat w, m.chat_id = chat) ∧
    (∀ msgs : List MsgRec,
      combine_messages_for_analysis msgs =
        combine_messages_for_analysis
          (msgs.filter (fun m => !(strTrim m.text == "")))) ∧
    (∀ (msgs : List MsgRec) (m : MsgRec), m ∈ msgs → strTrim m.text ≠ "" →
      strContainsSub (combine_messages_for_analysis msgs)
        (combined_part m) = true) ∧
    (∀ (db : List MsgRow) (chat : Int) (w : ℕ),
      (process_windowed_combined db chat w = none ↔
        get_recent_messages db chat w = [])) := by
  refine ⟨?_, ?_, ?_, ?_, ?_, ?_⟩
  · intro db chat w
    unfold get_recent_messages
    rw [List.pairwise_reverse]
    exact List.Pairwise.map msgRowToRec (fun a b h => msgDescGe_to_chron h)
      (List.Pairwise.sublist (List.take_sublist w _)
        (pairwise_sortRowsDesc _))
  · intro db chat w
    simp only [get_recent_messages, List.length_reverse, List.length_map,
      List.length_take]
    exact min_le_left _ _
  · intro db chat w m hm
    unfold get_recent_messages at hm
    rw [List.mem_reverse] at hm
    rcases List.mem_map.mp hm with ⟨row, hrow, hconv⟩
    have hrow2 : row ∈ sortRowsDesc (db.filter (fun r => r.chat_id == chat)) :=
      List.take_subset w _ hrow
    have hrow3 : row ∈ db.filter (fun r => r.chat_id == chat) :=
      (mem_sortRowsDesc row _).mp hrow2
    have hchat : (row.chat_id == chat) = true := (List.mem_filter.mp hrow3).2
    rw [← hconv]
    simpa [msgRowToRec] using hchat
  · intro msgs
    rw [combine_eq, combine_eq, filterMap_tag_filter]
  · intro msgs m hm ht
    rw [combine_eq]
    apply intercalate_hasSub
    exact List.mem_filterMap.mpr ⟨m, hm, by simp [ht]⟩
  · intro db chat w
    unfold process_windowed_combined
    cases hg : get_recent_messages db chat w with
    | nil => simp
    | cons x xs => simp

/-- Rows of the C9 witness: three messages of channel 7, texts "A", "" and
"B". -/
def dbC9 : List MsgRow :=
  [{ chat_id := 7, message_id := 1, date_utc := "d1", text := some "A",
     raw_json := "r1" },
   { chat_id := 7, message_id := 2, date_utc := "d2", text := some "",
     raw_json := "r2" },
   { chat_id := 7, message_id := 3, date_utc := "d3", text := some "B",
     raw_json := "r3" }]

/-- C9 witness: with window 3 the combined block tags "A" and "B" in id
order and omits the empty message; and an empty table skips inference,
via the specification theorem. -/
theorem C9_witness :
    process_windowed_combined dbC9 7 3 =
      some ("[Message 1 at d1]: A" ++ "\n\n" ++ "[Message 3 at d3]: B") ∧
    process_windowed_combined [] 7 3 = none :=
  ⟨by decide,
   (C9_window_aggregation_spec.2.2.2.2.2 [] 7 3).mpr rfl⟩
